import Mathlib

/-!
# scgolang/code: packet decoding and handler fan-out

A shallow embedding of `src/code.go`: the function `handlePacket`, which decodes
one MIDI packet and delivers the event to every registered handler, the
dispatch loop `handlers`, which multiplexes packets and registration requests,
and the connection: `New`, `AddHandler`, `SetButton`, `SetEncoder`.

Modelling conventions.
* A Go `byte` is a `Fin 256`; a Go `int` is an `Int` (the only arithmetic is
  `int(b) - 32` with `b` a byte, which cannot overflow a machine `int`).
* A Go `error` is an `Option GoError`, `none` being `nil`.
* A `Handler` is caller-owned code with side effects of its own: its methods
  are state transformers over a caller-chosen state type `σ`. Methods are taken
  to return normally.
* Every method call made on a handler is appended to a log (`World.calls`)
  together with the value the call returned, so that "which handler was called
  with what, in which order" is an observable of the model.
* `midi.CC` and `midi.Note` are constants of the package
  `github.com/scgolang/midi`; they are parameters `CC` and `Note` here.
* The `select` of the dispatch loop is resolved by the order of a finite list
  of inputs (`Input`), one per loop iteration.
* The functions `midi.Devices`, `Open` and `Packets` of the package
  `github.com/scgolang/midi` are given by the values they return (`Midi`).
* The channel of registration requests is a buffer with a capacity; a send made
  while no receiver is waiting proceeds when the buffer has room and blocks
  otherwise.
-/

namespace Code

set_option linter.dupNamespace false

/-- A Go `byte`. -/
abbrev Byte := Fin 256

/-- A non-nil Go `error` value. `foreign` stands for an error made outside this
package (by the transport or by a handler), `new` for `errors.New` and
`errors.Errorf`, `wrap` for `errors.Wrap`. -/
inductive GoError where
  | foreign (ident : Nat) (text : String)
  | new (text : String)
  | wrap (cause : GoError) (text : String)
  deriving DecidableEq, Repr

/-- The `Error()` method: the message of an error. -/
def GoError.Error : GoError → String
  | .foreign _ text => text
  | .new text => text
  | .wrap cause text => text ++ ": " ++ cause.Error

/-- The struct `Button` of `code.go`. -/
structure Button where
  Index : Int
  Value : Int
  deriving DecidableEq, Repr

/-- The struct `Encoder` of `code.go`. -/
structure Encoder where
  Index : Int
  Value : Int
  deriving DecidableEq, Repr

/-- The struct `midi.Packet`, as `code.go` uses it: `Data [3]byte` and `Err error`. -/
structure Packet where
  Data : Fin 3 → Byte
  Err : Option GoError

/-- The array literal `[3]byte{a, b, c}`. -/
def mkData (a b c : Byte) : Fin 3 → Byte :=
  fun i => if i = 0 then a else if i = 1 then b else c

/-- The interface `Handler` of `code.go`. The field `ident` tells handlers apart
in the call log. -/
structure Handler (σ : Type) where
  ident : Nat
  Button : Button → σ → Option GoError × σ
  Encoder : Encoder → σ → Option GoError × σ
  Err : GoError → σ → σ

/-- A method of the interface `Handler`, with its argument. -/
inductive Method where
  | Button (b : Button)
  | Encoder (e : Encoder)
  | Err (e : GoError)
  deriving DecidableEq, Repr

/-- One entry of the call log: which handler, which method and argument, and
the error the call returned (`none` for nil). -/
structure Call where
  handler : Nat
  method : Method
  result : Option GoError
  deriving DecidableEq, Repr

/-- Everything outside the dispatch loop's own variables: the handlers' state,
the log of calls made on handlers, and what was written to `os.Stderr`. -/
structure World (σ : Type) where
  st : σ
  calls : List Call
  stderr : List String

/-- The call `h.Encoder(enc)`. -/
def callEncoder {σ : Type} (h : Handler σ) (enc : Encoder) (w : World σ) :
    Option GoError × World σ :=
  let r := h.Encoder enc w.st
  (r.1, { w with st := r.2, calls := w.calls ++ [⟨h.ident, .Encoder enc, r.1⟩] })

/-- The call `h.Button(btn)`. -/
def callButton {σ : Type} (h : Handler σ) (btn : Button) (w : World σ) :
    Option GoError × World σ :=
  let r := h.Button btn w.st
  (r.1, { w with st := r.2, calls := w.calls ++ [⟨h.ident, .Button btn, r.1⟩] })

/-- The loop `for _, h := range handlers` of the `midi.CC` case, started with
the slice `errs`. -/
def encoderLoop {σ : Type} (enc : Encoder) :
    List (Handler σ) → List String → World σ → List String × World σ
  | [], errs, w => (errs, w)
  | h :: hs, errs, w =>
    match callEncoder h enc w with
    | (some err, w1) => encoderLoop enc hs (errs ++ [err.Error]) w1
    | (none, w1) => encoderLoop enc hs errs w1

/-- The loop `for _, h := range handlers` of the `midi.Note` case, started with
the slice `errs`. -/
def buttonLoop {σ : Type} (btn : Button) :
    List (Handler σ) → List String → World σ → List String × World σ
  | [], errs, w => (errs, w)
  | h :: hs, errs, w =>
    match callButton h btn w with
    | (some err, w1) => buttonLoop btn hs (errs ++ [err.Error]) w1
    | (none, w1) => buttonLoop btn hs errs w1

/-- The verb `%x` of package `fmt` applied to an unsigned integer: lowercase
hexadecimal, no leading zeros. -/
def fmtHex (n : Nat) : String :=
  String.mk (Nat.toDigits 16 n)

/-- The function `handlePacket` of `code.go`. -/
def handlePacket {σ : Type} (CC Note : Byte) (handlers : List (Handler σ)) (p : Packet)
    (w : World σ) : Option GoError × World σ :=
  match p.Err with
  | some e => (some e, w)
  | none =>
    if p.Data 0 = CC then
      let enc : Encoder := { Index := ((p.Data 1).val : Int), Value := ((p.Data 2).val : Int) }
      let r := encoderLoop enc handlers [] w
      if r.1.length = 0 then (none, r.2)
      else (some (GoError.new (", and ".intercalate r.1)), r.2)
    else if p.Data 0 = Note then
      let btn : Button := { Index := ((p.Data 1).val : Int) - 32, Value := ((p.Data 2).val : Int) }
      let r := buttonLoop btn handlers [] w
      if r.1.length = 0 then (none, r.2)
      else (some (GoError.new (", and ".intercalate r.1)), r.2)
    else
      (some (GoError.new ("unrecognized status byte: " ++ fmtHex (p.Data 0).val)), w)

/-- The verb `%#v` of package `fmt` applied to a `[3]byte`. -/
def fmtGoSyntax (d : Fin 3 → Byte) : String :=
  "[3]uint8\x7b0x" ++ fmtHex (d 0).val ++ ", 0x" ++ fmtHex (d 1).val ++ ", 0x" ++
    fmtHex (d 2).val ++ "\x7d"

/-- The line `fmt.Fprintf(os.Stderr, "%s (packet %#v)\n", err, pkt.Data)`. -/
def diagLine (err : GoError) (d : Fin 3 → Byte) : String :=
  err.Error ++ " (packet " ++ fmtGoSyntax d ++ ")\n"

/-- What one iteration of the dispatch loop's `select` receives: a packet from
`pkts` or a handler from `hch`. -/
inductive Input (σ : Type) where
  | pkt (p : Packet)
  | hch (h : Handler σ)

/-- The state of the dispatch loop: its local slice `handlers` and the world. -/
structure LoopState (σ : Type) where
  handlers : List (Handler σ)
  world : World σ

/-- One iteration of the `for { select { ... } }` loop of `handlers`. -/
def handlersStep {σ : Type} (CC Note : Byte) (s : LoopState σ) : Input σ → LoopState σ
  | .pkt p =>
    match handlePacket CC Note s.handlers p s.world with
    | (some err, w) =>
      { s with world := { w with stderr := w.stderr ++ [diagLine err p.Data] } }
    | (none, w) => { s with world := w }
  | .hch h => { s with handlers := s.handlers ++ [h] }

/-- The loop of `handlers` run from the state `s` over the inputs `inputs`. -/
def handlersFrom {σ : Type} (CC Note : Byte) (s : LoopState σ) (inputs : List (Input σ)) :
    LoopState σ :=
  inputs.foldl (handlersStep CC Note) s

/-- The function `handlers` of `code.go`, run over a finite sequence of inputs:
the slice `handlers` starts as `[]Handler{}`. -/
def handlers {σ : Type} (CC Note : Byte) (w : World σ) (inputs : List (Input σ)) :
    LoopState σ :=
  handlersFrom CC Note { handlers := [], world := w } inputs


/-! ## Observables used to state the properties -/

/-- The handler and the method of a logged call, without the returned value. -/
def Call.sig (c : Call) : Nat × Method := (c.handler, c.method)

/-- The messages of the errors returned by the logged calls, in log order. -/
def failures (cs : List Call) : List String :=
  (cs.filterMap fun c => c.result).map GoError.Error

/-- The value `handlePacket` returns after a delivery loop that collected `errs`. -/
def joined (errs : List String) : Option GoError :=
  if errs.length = 0 then none else some (GoError.new (", and ".intercalate errs))

/-- The value of one hexadecimal digit character. -/
def hexDigitValue (c : Char) : Nat :=
  if c.toNat - 48 < 10 then c.toNat - 48 else c.toNat - 87

/-- Whether a character is one of `0`..`9`, `a`..`f`. -/
def isLowerHexDigit (c : Char) : Bool :=
  (48 ≤ c.toNat && c.toNat ≤ 57) || (97 ≤ c.toNat && c.toNat ≤ 102)

/-- The number a string of hexadecimal digits denotes. -/
def hexValue (s : String) : Nat :=
  s.data.foldl (fun acc c => 16 * acc + hexDigitValue c) 0

/-! ## The delivery of events, stated from the specification

The definitions of this section follow the words of the specification and are
compared with the embedding of the code in the theorems below. -/

/-- The event a packet decodes to, as a method call to deliver: a packet with a
transport error or an unknown status byte decodes to nothing. -/
def specDecode (CC Note : Byte) (p : Packet) : Option Method :=
  match p.Err with
  | some _ => none
  | none =>
    if p.Data 0 = CC then
      some (Method.Encoder ⟨((p.Data 1).val : Int), ((p.Data 2).val : Int)⟩)
    else if p.Data 0 = Note then
      some (Method.Button ⟨((p.Data 1).val : Int) - 32, ((p.Data 2).val : Int)⟩)
    else none

/-- The handlers whose registration requests occur in `inputs`, in order. -/
def registered {σ : Type} (inputs : List (Input σ)) : List (Handler σ) :=
  inputs.filterMap fun x =>
    match x with
    | .hch h => some h
    | .pkt _ => none

/-- The deliveries due to the input at position `i`: when it is a packet that
decodes, its event goes once to every handler registered at a position before
`i`, in registration order; otherwise there are none. -/
def specDeliveredAt {σ : Type} (CC Note : Byte) (inputs : List (Input σ)) (i : Nat) :
    List (Nat × Method) :=
  match inputs[i]? with
  | some (.pkt p) =>
    match specDecode CC Note p with
    | some ev => (registered (inputs.take i)).map fun h => (h.ident, ev)
    | none => []
  | _ => []

/-- All deliveries due to a sequence of inputs, in input order. -/
def specDeliveries {σ : Type} (CC Note : Byte) (inputs : List (Input σ)) :
    List (Nat × Method) :=
  (List.range inputs.length).flatMap (specDeliveredAt CC Note inputs)

/-! ## Sample handlers and packets -/

/-- A handler that counts its calls in the state and never fails. -/
def okHandler (i : Nat) : Handler Nat where
  ident := i
  Button := fun _ s => (none, s + 1)
  Encoder := fun _ s => (none, s + 1)
  Err := fun _ s => s

/-- A handler that counts its calls in the state and always fails with `msg`. -/
def failHandler (i : Nat) (msg : String) : Handler Nat where
  ident := i
  Button := fun _ s => (some (GoError.foreign i msg), s + 1)
  Encoder := fun _ s => (some (GoError.foreign i msg), s + 1)
  Err := fun _ s => s

/-- A handler that fails on the first call it ever receives and succeeds on
every later one. -/
def flakyHandler (i : Nat) : Handler Nat where
  ident := i
  Button := fun _ s => (if s = 0 then some (GoError.foreign i "first call") else none, s + 1)
  Encoder := fun _ s => (if s = 0 then some (GoError.foreign i "first call") else none, s + 1)
  Err := fun _ s => s

/-- A world in which nothing has happened yet. -/
def world0 : World Nat := { st := 0, calls := [], stderr := [] }

/-- A packet read without transport error. -/
def okPacket (a b c : Byte) : Packet := { Data := mkData a b c, Err := none }

/-- A packet whose read failed with the transport error `e`. -/
def errPacket (a b c : Byte) (e : GoError) : Packet := { Data := mkData a b c, Err := some e }

/-- The sequence of the specification's example: one handler registered, then
the packets `{CC,3,64}`, `{Note,37,100}`, `{0x99,0,0}`. -/
def sampleInputs : List (Input Nat) :=
  [.hch (okHandler 1), .pkt (okPacket 0xB0 3 64), .pkt (okPacket 0x90 37 100),
    .pkt (okPacket 0x99 0 0)]

/-- The world `w` with an empty call log and nothing written to `os.Stderr`. -/
def World.fresh {σ : Type} (w : World σ) : World σ := { st := w.st, calls := [], stderr := [] }

/-- The world `w` after the effects recorded in `d`, a world that started fresh. -/
def World.after {σ : Type} (w d : World σ) : World σ :=
  { st := d.st, calls := w.calls ++ d.calls, stderr := w.stderr ++ d.stderr }

/-! ## The connection: `New`, `AddHandler`, `SetButton`, `SetEncoder` -/

/-- The constant `Controls` of `code.go`. -/
def Controls : String := "Controls"

/-- A `*midi.Device`, as `code.go` uses it: the field `Name`. The field `ident`
tells devices of the same name apart. -/
structure Device where
  Name : String
  ident : Nat
  deriving DecidableEq, Repr

/-- The package `github.com/scgolang/midi` as `New` uses it: the values returned
by `midi.Devices()`, by `Open()` on a device and by `Packets()` on a device
(the packet channel is named by a number). `New` calls each at most once. -/
structure Midi where
  Devices : List Device × Option GoError
  Open : Device → Option GoError
  Packets : Device → Nat × Option GoError

/-- A Go channel of handlers with a buffer, as made by `make(chan Handler, cap)`:
`buf` holds the handlers sent and not yet received, oldest first. -/
structure HandlerChan (σ : Type) where
  cap : Nat
  buf : List (Handler σ)

/-- The expression `make(chan Handler, cap)`. -/
def makeChan {σ : Type} (cap : Nat) : HandlerChan σ := { cap := cap, buf := [] }

/-- The send statement `ch <- h` while no receiver is waiting on `ch`: it
proceeds when the buffer has room, and blocks (`none`) when the buffer is
full. -/
def HandlerChan.send {σ : Type} (ch : HandlerChan σ) (h : Handler σ) :
    Option (HandlerChan σ) :=
  if ch.buf.length < ch.cap then some { ch with buf := ch.buf ++ [h] } else none

/-- The receive `h := <-ch` of the dispatch loop's `select`: the oldest buffered
handler, when there is one. -/
def HandlerChan.recv {σ : Type} (ch : HandlerChan σ) :
    Option (Handler σ × HandlerChan σ) :=
  match ch.buf with
  | [] => none
  | h :: rest => some (h, { ch with buf := rest })

/-- The struct `Code` of `code.go`: the embedded `*midi.Device` (`none` for nil)
and the channel `handlers`. -/
structure Code (σ : Type) where
  Device : Option Device
  handlers : HandlerChan σ

/-- What a call of `New` leaves behind: the two values it returns (`none` for
nil) and, when the statement `go handlers(pkts, hch)` was executed, the packet
channel the dispatch loop was started on. -/
structure NewResult (σ : Type) where
  code : Option (Code σ)
  err : Option GoError
  started : Option Nat

/-- The loop `for _, d := range devices` of `New`. -/
def selectDevice {σ : Type} (c : Code σ) : List Device → Code σ
  | [] => c
  | d :: ds =>
    if d.Name = Controls then selectDevice { c with Device := some d } ds
    else selectDevice c ds

/-- The function `New` of `code.go`. -/
def New {σ : Type} (m : Midi) : NewResult σ :=
  match m.Devices.2 with
  | some err => { code := none, err := some (GoError.wrap err "listing devices"), started := none }
  | none =>
    let hch : HandlerChan σ := makeChan 1
    let c : Code σ := selectDevice { Device := none, handlers := hch } m.Devices.1
    match c.Device with
    | none => { code := none, err := some (GoError.new "finding device"), started := none }
    | some d =>
      match m.Open d with
      | some err =>
        { code := none, err := some (GoError.wrap err "opening device"), started := none }
      | none =>
        match (m.Packets d).2 with
        | some err =>
          { code := none, err := some (GoError.wrap err "getting packets channel"),
            started := none }
        | none => { code := some c, err := none, started := some (m.Packets d).1 }

/-- The method `AddHandler` of `code.go`, called while the dispatch loop is not
waiting in its `select`: `none` when the caller blocks. -/
def Code.AddHandler {σ : Type} (c : Code σ) (h : Handler σ) : Option (Code σ) :=
  match c.handlers.send h with
  | some ch => some { c with handlers := ch }
  | none => none

/-- The method `SetButton` of `code.go`: the returned error and the connection
after the call. -/
def Code.SetButton {σ : Type} (c : Code σ) (_b : Button) : Option GoError × Code σ :=
  (none, c)

/-- The method `SetEncoder` of `code.go`: the returned error and the connection
after the call. -/
def Code.SetEncoder {σ : Type} (c : Code σ) (_e : Encoder) : Option GoError × Code σ :=
  (none, c)

/-- Successive calls of `AddHandler` made while the dispatch loop receives
nothing (it is busy inside a handler): how many of them return before one
blocks, and the connection then. -/
def addWhileBusy {σ : Type} (c : Code σ) : List (Handler σ) → Nat × Code σ
  | [] => (0, c)
  | h :: hs =>
    match c.AddHandler h with
    | none => (0, c)
    | some c1 => ((addWhileBusy c1 hs).1 + 1, (addWhileBusy c1 hs).2)

/-- The last device named `Controls` of a list, when there is one. -/
def lastControls (devices : List Device) : Option Device :=
  (devices.filter fun d => d.Name = Controls).getLast?

/-- A `midi` package that lists the devices `ds` and on which opening a device
and getting its packet channel succeed. -/
def okMidi (ds : List Device) : Midi where
  Devices := (ds, none)
  Open := fun _ => none
  Packets := fun d => (d.ident, none)

/-- A `midi` package on which listing the devices fails with `e`. -/
def listFailMidi (e : GoError) : Midi where
  Devices := ([], some e)
  Open := fun _ => none
  Packets := fun d => (d.ident, none)

/-- A `midi` package that lists the devices `ds` and on which opening any
device fails with `e`. -/
def openFailMidi (ds : List Device) (e : GoError) : Midi where
  Devices := (ds, none)
  Open := fun _ => some e
  Packets := fun d => (d.ident, none)

/-- A `midi` package that lists the devices `ds` and on which getting the packet
channel of any device fails with `e`. -/
def packetsFailMidi (ds : List Device) (e : GoError) : Midi where
  Devices := (ds, none)
  Open := fun _ => none
  Packets := fun d => (d.ident, some e)

/-! ## The diagnostics, stated from the specification -/

/-- The diagnostic lines due to the input at position `i` of a run started in
the world `w`: one line when it is a packet whose handling, in the state the
loop has reached by then, returns an error, made of the error's message and of
the packet's three bytes; none otherwise. -/
def specDiagAt {σ : Type} (CC Note : Byte) (w : World σ) (inputs : List (Input σ))
    (i : Nat) : List String :=
  match inputs[i]? with
  | some (.pkt p) =>
    match (handlePacket CC Note (handlers CC Note w (inputs.take i)).handlers p
        (handlers CC Note w (inputs.take i)).world).1 with
    | some err =>
      [err.Error ++ " (packet [3]uint8\x7b0x" ++ fmtHex (p.Data 0).val ++ ", 0x" ++
        fmtHex (p.Data 1).val ++ ", 0x" ++ fmtHex (p.Data 2).val ++ "\x7d)\n"]
    | none => []
  | _ => []

/-! ## Auxiliary facts about the two delivery loops -/

theorem failures_nil : failures [] = [] := rfl

theorem failures_cons_some (h : Nat) (m : Method) (e : GoError) (cs : List Call) :
    failures (⟨h, m, some e⟩ :: cs) = e.Error :: failures cs := by
  simp [failures, List.filterMap_cons]

theorem failures_cons_none (h : Nat) (m : Method) (cs : List Call) :
    failures (⟨h, m, none⟩ :: cs) = failures cs := by
  simp [failures, List.filterMap_cons]

theorem encoderLoop_spec {σ : Type} (enc : Encoder) (hs : List (Handler σ)) :
    ∀ (errs : List String) (w : World σ),
      ∃ new : List Call,
        (encoderLoop enc hs errs w).2.calls = w.calls ++ new ∧
        (encoderLoop enc hs errs w).2.stderr = w.stderr ∧
        new.map Call.sig = hs.map (fun h => (h.ident, Method.Encoder enc)) ∧
        (encoderLoop enc hs errs w).1 = errs ++ failures new := by
  induction hs with
  | nil =>
    intro errs w
    exact ⟨[], by simp [encoderLoop], rfl, rfl, by simp [encoderLoop, failures_nil]⟩
  | cons h hs ih =>
    intro errs w
    cases hr : (h.Encoder enc w.st).1 with
    | none =>
      obtain ⟨new, h1, h2, h3, h4⟩ := ih errs (callEncoder h enc w).2
      refine ⟨⟨h.ident, .Encoder enc, none⟩ :: new, ?_, ?_, ?_, ?_⟩
      all_goals simp only [encoderLoop, callEncoder, hr] at h1 h2 h4 ⊢
      · simpa using h1
      · simpa using h2
      · simp [Call.sig, ← h3]
      · rw [failures_cons_none]; exact h4
    | some e =>
      obtain ⟨new, h1, h2, h3, h4⟩ := ih (errs ++ [e.Error]) (callEncoder h enc w).2
      refine ⟨⟨h.ident, .Encoder enc, some e⟩ :: new, ?_, ?_, ?_, ?_⟩
      all_goals simp only [encoderLoop, callEncoder, hr] at h1 h2 h4 ⊢
      · simpa using h1
      · simpa using h2
      · simp [Call.sig, ← h3]
      · rw [failures_cons_some]; simpa using h4

theorem buttonLoop_spec {σ : Type} (btn : Button) (hs : List (Handler σ)) :
    ∀ (errs : List String) (w : World σ),
      ∃ new : List Call,
        (buttonLoop btn hs errs w).2.calls = w.calls ++ new ∧
        (buttonLoop btn hs errs w).2.stderr = w.stderr ∧
        new.map Call.sig = hs.map (fun h => (h.ident, Method.Button btn)) ∧
        (buttonLoop btn hs errs w).1 = errs ++ failures new := by
  induction hs with
  | nil =>
    intro errs w
    exact ⟨[], by simp [buttonLoop], rfl, rfl, by simp [buttonLoop, failures_nil]⟩
  | cons h hs ih =>
    intro errs w
    cases hr : (h.Button btn w.st).1 with
    | none =>
      obtain ⟨new, h1, h2, h3, h4⟩ := ih errs (callButton h btn w).2
      refine ⟨⟨h.ident, .Button btn, none⟩ :: new, ?_, ?_, ?_, ?_⟩
      all_goals simp only [buttonLoop, callButton, hr] at h1 h2 h4 ⊢
      · simpa using h1
      · simpa using h2
      · simp [Call.sig, ← h3]
      · rw [failures_cons_none]; exact h4
    | some e =>
      obtain ⟨new, h1, h2, h3, h4⟩ := ih (errs ++ [e.Error]) (callButton h btn w).2
      refine ⟨⟨h.ident, .Button btn, some e⟩ :: new, ?_, ?_, ?_, ?_⟩
      all_goals simp only [buttonLoop, callButton, hr] at h1 h2 h4 ⊢
      · simpa using h1
      · simpa using h2
      · simp [Call.sig, ← h3]
      · rw [failures_cons_some]; simpa using h4

theorem handlePacket_err {σ : Type} (CC Note : Byte) (hs : List (Handler σ)) (p : Packet)
    (w : World σ) (e : GoError) (he : p.Err = some e) :
    handlePacket CC Note hs p w = (some e, w) := by
  simp [handlePacket, he]

theorem handlePacket_other {σ : Type} (CC Note : Byte) (hs : List (Handler σ)) (p : Packet)
    (w : World σ) (he : p.Err = none) (h1 : p.Data 0 ≠ CC) (h2 : p.Data 0 ≠ Note) :
    handlePacket CC Note hs p w =
      (some (GoError.new ("unrecognized status byte: " ++ fmtHex (p.Data 0).val)), w) := by
  simp [handlePacket, he, h1, h2]

theorem handlePacket_cc {σ : Type} (CC Note : Byte) (hs : List (Handler σ)) (p : Packet)
    (w : World σ) (he : p.Err = none) (h1 : p.Data 0 = CC) :
    ∃ new : List Call,
      (handlePacket CC Note hs p w).2.calls = w.calls ++ new ∧
      (handlePacket CC Note hs p w).2.stderr = w.stderr ∧
      new.map Call.sig = hs.map (fun h =>
        (h.ident, Method.Encoder ⟨((p.Data 1).val : Int), ((p.Data 2).val : Int)⟩)) ∧
      (handlePacket CC Note hs p w).1 = joined (failures new) := by
  obtain ⟨new, c1, c2, c3, c4⟩ :=
    encoderLoop_spec ⟨((p.Data 1).val : Int), ((p.Data 2).val : Int)⟩ hs [] w
  refine ⟨new, ?_, ?_, c3, ?_⟩
  · simp only [handlePacket, he, h1, if_true]; split <;> exact c1
  · simp only [handlePacket, he, h1, if_true]; split <;> exact c2
  · simp only [handlePacket, he, h1, if_true, joined]
    rw [List.nil_append] at c4
    rw [c4]; split <;> rfl

theorem handlePacket_note {σ : Type} (CC Note : Byte) (hs : List (Handler σ)) (p : Packet)
    (w : World σ) (he : p.Err = none) (h1 : p.Data 0 ≠ CC) (h2 : p.Data 0 = Note) :
    ∃ new : List Call,
      (handlePacket CC Note hs p w).2.calls = w.calls ++ new ∧
      (handlePacket CC Note hs p w).2.stderr = w.stderr ∧
      new.map Call.sig = hs.map (fun h =>
        (h.ident, Method.Button ⟨((p.Data 1).val : Int) - 32, ((p.Data 2).val : Int)⟩)) ∧
      (handlePacket CC Note hs p w).1 = joined (failures new) := by
  obtain ⟨new, c1, c2, c3, c4⟩ :=
    buttonLoop_spec ⟨((p.Data 1).val : Int) - 32, ((p.Data 2).val : Int)⟩ hs [] w
  subst h2
  refine ⟨new, ?_, ?_, c3, ?_⟩
  · simp only [handlePacket, he, h1, if_true, if_false]; split <;> exact c1
  · simp only [handlePacket, he, h1, if_true, if_false]; split <;> exact c2
  · simp only [handlePacket, he, h1, if_true, if_false, joined]
    rw [List.nil_append] at c4
    rw [c4]; split <;> rfl

theorem failures_ne_nil (cs : List Call) (h : ∃ c ∈ cs, c.result ≠ none) :
    failures cs ≠ [] := by
  obtain ⟨c, hc, hr⟩ := h
  obtain ⟨e, he⟩ := Option.ne_none_iff_exists.mp hr
  intro hnil
  have hmem : e ∈ cs.filterMap fun c => c.result :=
    List.mem_filterMap.mpr ⟨c, hc, he.symm⟩
  have hlen : (cs.filterMap fun c => c.result) = [] := by
    simpa [failures] using hnil
  rw [hlen] at hmem
  exact List.not_mem_nil _ hmem

theorem joined_of_ne_nil (errs : List String) (h : errs ≠ []) :
    joined errs = some (GoError.new (", and ".intercalate errs)) := by
  cases errs with
  | nil => exact absurd rfl h
  | cons a as => simp [joined]

theorem sig_method_of_map {cs : List Call} {α : Type} {xs : List α} {f : α → Nat} {m : Method}
    (h : cs.map Call.sig = xs.map (fun x => (f x, m))) : ∀ c ∈ cs, c.method = m := by
  intro c hc
  have hmem : c.sig ∈ xs.map (fun x => (f x, m)) := h ▸ List.mem_map_of_mem Call.sig hc
  obtain ⟨x, _, hx⟩ := List.mem_map.mp hmem
  have := congrArg Prod.snd hx
  simpa [Call.sig] using this.symm

theorem handler_of_sig {cs : List Call} {α : Type} {xs : List α} {f : α → Nat} {m : Method}
    (h : cs.map Call.sig = xs.map (fun x => (f x, m))) :
    cs.map (fun c => c.handler) = xs.map f := by
  have := congrArg (List.map Prod.fst) h
  simpa [List.map_map, Function.comp_def, Call.sig] using this

/-! ## Properties of `handlePacket` -/

/-- C1: for a packet without transport error whose status byte is `midi.CC`,
`handlePacket` calls the `Encoder` method of every registered handler, in
registry order, with `Encoder{Index: d1, Value: d2}` where `d1`, `d2` are the
second and third bytes read as unsigned integers in 0..255; no `Button` method
is called. -/
theorem handlePacket_cc_delivers_encoder {σ : Type} (CC Note : Byte)
    (hs : List (Handler σ)) (p : Packet) (w : World σ)
    (he : p.Err = none) (hcc : p.Data 0 = CC) :
    ∃ new : List Call,
      (handlePacket CC Note hs p w).2.calls = w.calls ++ new ∧
      new.map Call.sig = hs.map (fun h =>
        (h.ident, Method.Encoder ⟨((p.Data 1).val : Int), ((p.Data 2).val : Int)⟩)) ∧
      (0 ≤ ((p.Data 1).val : Int) ∧ ((p.Data 1).val : Int) ≤ 255) ∧
      (0 ≤ ((p.Data 2).val : Int) ∧ ((p.Data 2).val : Int) ≤ 255) ∧
      (∀ c ∈ new, ∀ b : Button, c.method ≠ Method.Button b) := by
  obtain ⟨new, c1, _, c3, _⟩ := handlePacket_cc CC Note hs p w he hcc
  refine ⟨new, c1, c3, ⟨by omega, by omega⟩, ⟨by omega, by omega⟩, ?_⟩
  intro c hc b hb
  rw [sig_method_of_map c3 c hc] at hb
  cases hb

/-- Witness of C1: two handlers, the first of which fails, on the packet
`{0xB0, 3, 64}`. -/
theorem handlePacket_cc_delivers_encoder_witness :
    (okPacket 0xB0 3 64).Err = none ∧ (okPacket 0xB0 3 64).Data 0 = 0xB0 ∧
    ∃ new : List Call,
      (handlePacket 0xB0 0x90 [failHandler 1 "boom", okHandler 2] (okPacket 0xB0 3 64)
        world0).2.calls = world0.calls ++ new ∧
      new.map Call.sig = [failHandler 1 "boom", okHandler 2].map (fun h =>
        (h.ident, Method.Encoder ⟨(((okPacket 0xB0 3 64).Data 1).val : Int),
          (((okPacket 0xB0 3 64).Data 2).val : Int)⟩)) ∧
      (0 ≤ (((okPacket 0xB0 3 64).Data 1).val : Int) ∧
        (((okPacket 0xB0 3 64).Data 1).val : Int) ≤ 255) ∧
      (0 ≤ (((okPacket 0xB0 3 64).Data 2).val : Int) ∧
        (((okPacket 0xB0 3 64).Data 2).val : Int) ≤ 255) ∧
      (∀ c ∈ new, ∀ b : Button, c.method ≠ Method.Button b) :=
  ⟨rfl, by decide,
    handlePacket_cc_delivers_encoder 0xB0 0x90 [failHandler 1 "boom", okHandler 2]
      (okPacket 0xB0 3 64) world0 rfl (by decide)⟩

/-- C2: for a packet without transport error whose status byte is `midi.Note`,
`handlePacket` calls the `Button` method of every registered handler, in
registry order, with `Button{Index: d1 - 32, Value: d2}`, the subtraction being
an integer subtraction: for `d1 ≥ 32` the index is the natural number `d1 - 32`,
for `d1 < 32` it is negative, between -32 and -1; no `Encoder` method is
called. -/
theorem handlePacket_note_delivers_button {σ : Type} (CC Note : Byte)
    (hs : List (Handler σ)) (p : Packet) (w : World σ)
    (he : p.Err = none) (hnote : p.Data 0 = Note) (hdistinct : CC ≠ Note) :
    ∃ new : List Call,
      (handlePacket CC Note hs p w).2.calls = w.calls ++ new ∧
      new.map Call.sig = hs.map (fun h =>
        (h.ident, Method.Button ⟨((p.Data 1).val : Int) - 32, ((p.Data 2).val : Int)⟩)) ∧
      (32 ≤ (p.Data 1).val →
        ((p.Data 1).val : Int) - 32 = (((p.Data 1).val - 32 : Nat) : Int)) ∧
      ((p.Data 1).val < 32 →
        -32 ≤ ((p.Data 1).val : Int) - 32 ∧ ((p.Data 1).val : Int) - 32 ≤ -1) ∧
      (∀ c ∈ new, ∀ e : Encoder, c.method ≠ Method.Encoder e) := by
  have hne : p.Data 0 ≠ CC := fun h => hdistinct (h.symm.trans hnote)
  obtain ⟨new, c1, _, c3, _⟩ := handlePacket_note CC Note hs p w he hne hnote
  refine ⟨new, c1, c3, by omega, by omega, ?_⟩
  intro c hc e hb
  rw [sig_method_of_map c3 c hc] at hb
  cases hb

/-- Witness of C2: one handler on the packet `{0x90, 5, 100}`, whose second
byte is below 32. -/
theorem handlePacket_note_delivers_button_witness :
    (okPacket 0x90 5 100).Err = none ∧ (okPacket 0x90 5 100).Data 0 = 0x90 ∧
    (0xB0 : Byte) ≠ 0x90 ∧
    ∃ new : List Call,
      (handlePacket 0xB0 0x90 [okHandler 7] (okPacket 0x90 5 100) world0).2.calls =
        world0.calls ++ new ∧
      new.map Call.sig = [okHandler 7].map (fun h =>
        (h.ident, Method.Button ⟨(((okPacket 0x90 5 100).Data 1).val : Int) - 32,
          (((okPacket 0x90 5 100).Data 2).val : Int)⟩)) ∧
      (32 ≤ ((okPacket 0x90 5 100).Data 1).val →
        (((okPacket 0x90 5 100).Data 1).val : Int) - 32 =
          ((((okPacket 0x90 5 100).Data 1).val - 32 : Nat) : Int)) ∧
      (((okPacket 0x90 5 100).Data 1).val < 32 →
        -32 ≤ (((okPacket 0x90 5 100).Data 1).val : Int) - 32 ∧
          (((okPacket 0x90 5 100).Data 1).val : Int) - 32 ≤ -1) ∧
      (∀ c ∈ new, ∀ e : Encoder, c.method ≠ Method.Encoder e) :=
  ⟨rfl, by decide, by decide,
    handlePacket_note_delivers_button 0xB0 0x90 [okHandler 7] (okPacket 0x90 5 100) world0
      rfl (by decide) (by decide)⟩

set_option maxRecDepth 100000 in
theorem fmtHex_byte : ∀ b : Byte,
    (fmtHex b.val).data.all isLowerHexDigit = true ∧ hexValue (fmtHex b.val) = b.val ∧
      ((fmtHex b.val).data.head? = some '0' → b.val = 0) := by
  decide

set_option maxRecDepth 100000 in
theorem fmtHex_byte_canonical : ∀ b : Byte,
    fmtHex b.val ≠ "" ∧ ((fmtHex b.val).data.head? = some '0' → fmtHex b.val = "0") := by
  decide

/-- C3: for a packet without transport error whose status byte is neither
`midi.CC` nor `midi.Note`, `handlePacket` returns an error whose message is
`unrecognized status byte: ` followed by the status byte in lowercase
hexadecimal, as the verb `%x` writes it: a string that is not empty, made of
the digits `0-9a-f` only, denoting the byte's value, and without a leading zero
unless it is the one digit `0` (so the byte 0 gives `0`, and never nothing nor
`00`); it calls no handler: the world is left exactly as it was. -/
theorem handlePacket_unrecognized_status {σ : Type} (CC Note : Byte)
    (hs : List (Handler σ)) (p : Packet) (w : World σ)
    (he : p.Err = none) (hcc : p.Data 0 ≠ CC) (hnote : p.Data 0 ≠ Note) :
    ∃ (e : GoError) (hex : String),
      (handlePacket CC Note hs p w).1 = some e ∧
      e.Error = "unrecognized status byte: " ++ hex ∧
      hex = fmtHex (p.Data 0).val ∧
      hex ≠ "" ∧
      hex.data.all isLowerHexDigit = true ∧
      hexValue hex = (p.Data 0).val ∧
      (hex.data.head? = some '0' → (p.Data 0).val = 0) ∧
      (hex.data.head? = some '0' → hex = "0") ∧
      ((p.Data 0).val = 0 → e.Error = "unrecognized status byte: 0") ∧
      (handlePacket CC Note hs p w).2 = w := by
  refine ⟨GoError.new ("unrecognized status byte: " ++ fmtHex (p.Data 0).val),
    fmtHex (p.Data 0).val, ?_, rfl, rfl, (fmtHex_byte_canonical (p.Data 0)).1,
    (fmtHex_byte (p.Data 0)).1, (fmtHex_byte (p.Data 0)).2.1,
    (fmtHex_byte (p.Data 0)).2.2, (fmtHex_byte_canonical (p.Data 0)).2, ?_, ?_⟩
  · rw [handlePacket_other CC Note hs p w he hcc hnote]
  · intro h0
    show "unrecognized status byte: " ++ fmtHex (p.Data 0).val = _
    rw [h0]
    decide
  · rw [handlePacket_other CC Note hs p w he hcc hnote]

/-- Witness of C3: the packet `{0x99, 0, 0}` with one registered handler, and
the messages for the status bytes 0x99, 0 and 0x0a evaluated. -/
theorem handlePacket_unrecognized_status_witness :
    (okPacket 0x99 0 0).Err = none ∧ (okPacket 0x99 0 0).Data 0 ≠ 0xB0 ∧
    (okPacket 0x99 0 0).Data 0 ≠ 0x90 ∧
    (handlePacket 0xB0 0x90 [okHandler 1] (okPacket 0x99 0 0) world0).1 =
      some (GoError.new "unrecognized status byte: 99") ∧
    (handlePacket 0xB0 0x90 [okHandler 1] (okPacket 0 0 0) world0).1 =
      some (GoError.new "unrecognized status byte: 0") ∧
    (handlePacket 0xB0 0x90 [okHandler 1] (okPacket 0x0a 0 0) world0).1 =
      some (GoError.new "unrecognized status byte: a") ∧
    ∃ (e : GoError) (hex : String),
      (handlePacket 0xB0 0x90 [okHandler 1] (okPacket 0x99 0 0) world0).1 = some e ∧
      e.Error = "unrecognized status byte: " ++ hex ∧
      hex = fmtHex ((okPacket 0x99 0 0).Data 0).val ∧
      hex ≠ "" ∧
      hex.data.all isLowerHexDigit = true ∧
      hexValue hex = ((okPacket 0x99 0 0).Data 0).val ∧
      (hex.data.head? = some '0' → ((okPacket 0x99 0 0).Data 0).val = 0) ∧
      (hex.data.head? = some '0' → hex = "0") ∧
      (((okPacket 0x99 0 0).Data 0).val = 0 → e.Error = "unrecognized status byte: 0") ∧
      (handlePacket 0xB0 0x90 [okHandler 1] (okPacket 0x99 0 0) world0).2 = world0 :=
  ⟨rfl, by decide, by decide, by decide, by decide, by decide,
    handlePacket_unrecognized_status 0xB0 0x90 [okHandler 1] (okPacket 0x99 0 0) world0
      rfl (by decide) (by decide)⟩

/-- C4: for a packet whose transport error is set, whatever its bytes and
whatever the registered handlers, `handlePacket` returns that very error and
calls no handler: the world is left exactly as it was. -/
theorem handlePacket_transport_error {σ : Type} (CC Note : Byte)
    (hs : List (Handler σ)) (p : Packet) (w : World σ) (e : GoError)
    (he : p.Err = some e) :
    (handlePacket CC Note hs p w).1 = some e ∧ (handlePacket CC Note hs p w).2 = w := by
  rw [handlePacket_err CC Note hs p w e he]
  exact ⟨rfl, rfl⟩

/-- Witness of C4: a packet with a valid Control-Change status byte and a
transport error. -/
theorem handlePacket_transport_error_witness :
    (errPacket 0xB0 3 64 (GoError.foreign 0 "read failed")).Err =
      some (GoError.foreign 0 "read failed") ∧
    (handlePacket 0xB0 0x90 [okHandler 1]
      (errPacket 0xB0 3 64 (GoError.foreign 0 "read failed")) world0).1 =
        some (GoError.foreign 0 "read failed") ∧
    (handlePacket 0xB0 0x90 [okHandler 1]
      (errPacket 0xB0 3 64 (GoError.foreign 0 "read failed")) world0).2 = world0 :=
  ⟨rfl, handlePacket_transport_error 0xB0 0x90 [okHandler 1]
    (errPacket 0xB0 3 64 (GoError.foreign 0 "read failed")) world0 _ rfl⟩

theorem handlePacket_delivery {σ : Type} (CC Note : Byte) (hs : List (Handler σ))
    (p : Packet) (w : World σ) (he : p.Err = none)
    (hst : p.Data 0 = CC ∨ p.Data 0 = Note) :
    ∃ (new : List Call) (m : Method),
      (handlePacket CC Note hs p w).2.calls = w.calls ++ new ∧
      (handlePacket CC Note hs p w).2.stderr = w.stderr ∧
      new.map Call.sig = hs.map (fun h => (h.ident, m)) ∧
      (handlePacket CC Note hs p w).1 = joined (failures new) := by
  by_cases hcc : p.Data 0 = CC
  · obtain ⟨new, c1, c2, c3, c4⟩ := handlePacket_cc CC Note hs p w he hcc
    exact ⟨new, _, c1, c2, c3, c4⟩
  · obtain ⟨new, c1, c2, c3, c4⟩ :=
      handlePacket_note CC Note hs p w he hcc (hst.resolve_left hcc)
    exact ⟨new, _, c1, c2, c3, c4⟩

/-- C5: for a Control-Change or Note packet without transport error, the calls
`handlePacket` makes are one per registered handler in registry order, and if
at least one of them returns an error then `handlePacket` returns an error
whose message is the messages of the failing calls, in that order, joined with
`, and `: with one failing handler the message is that handler's message
alone, with two it is the first's, then `, and `, then the second's. -/
theorem handlePacket_joins_handler_errors {σ : Type} (CC Note : Byte)
    (hs : List (Handler σ)) (p : Packet) (w : World σ)
    (he : p.Err = none) (hst : p.Data 0 = CC ∨ p.Data 0 = Note) :
    ∃ new : List Call,
      (handlePacket CC Note hs p w).2.calls = w.calls ++ new ∧
      new.map (fun c => c.handler) = hs.map (fun h => h.ident) ∧
      ((∃ c ∈ new, c.result ≠ none) →
        ∃ e : GoError, (handlePacket CC Note hs p w).1 = some e ∧
          e.Error = ", and ".intercalate
            ((new.filterMap fun c => c.result).map GoError.Error)) ∧
      (∀ a : GoError, (new.filterMap fun c => c.result) = [a] →
        ∃ e : GoError, (handlePacket CC Note hs p w).1 = some e ∧ e.Error = a.Error) ∧
      (∀ a b : GoError, (new.filterMap fun c => c.result) = [a, b] →
        ∃ e : GoError, (handlePacket CC Note hs p w).1 = some e ∧
          e.Error = a.Error ++ ", and " ++ b.Error) := by
  obtain ⟨new, m, c1, _, c3, c4⟩ := handlePacket_delivery CC Note hs p w he hst
  refine ⟨new, c1, handler_of_sig c3, ?_, ?_, ?_⟩
  · intro hfail
    refine ⟨GoError.new (", and ".intercalate (failures new)), ?_, rfl⟩
    rw [c4, joined_of_ne_nil _ (failures_ne_nil new hfail)]
  · intro a ha
    refine ⟨GoError.new a.Error, ?_, rfl⟩
    rw [c4, failures, ha]
    rfl
  · intro a b hab
    refine ⟨GoError.new (a.Error ++ ", and " ++ b.Error), ?_, rfl⟩
    rw [c4, failures, hab]
    rfl

/-- Witness of C5: three handlers of which the first and the third fail. -/
theorem handlePacket_joins_handler_errors_witness :
    (okPacket 0xB0 3 64).Err = none ∧
    ((okPacket 0xB0 3 64).Data 0 = 0xB0 ∨ (okPacket 0xB0 3 64).Data 0 = 0x90) ∧
    (handlePacket 0xB0 0x90 [failHandler 1 "one", okHandler 2, failHandler 3 "three"]
      (okPacket 0xB0 3 64) world0).1 = some (GoError.new "one, and three") ∧
    ∃ new : List Call,
      (handlePacket 0xB0 0x90 [failHandler 1 "one", okHandler 2, failHandler 3 "three"]
        (okPacket 0xB0 3 64) world0).2.calls = world0.calls ++ new ∧
      new.map (fun c => c.handler) =
        [failHandler 1 "one", okHandler 2, failHandler 3 "three"].map (fun h => h.ident) ∧
      ((∃ c ∈ new, c.result ≠ none) →
        ∃ e : GoError,
          (handlePacket 0xB0 0x90 [failHandler 1 "one", okHandler 2, failHandler 3 "three"]
            (okPacket 0xB0 3 64) world0).1 = some e ∧
          e.Error = ", and ".intercalate
            ((new.filterMap fun c => c.result).map GoError.Error)) ∧
      (∀ a : GoError, (new.filterMap fun c => c.result) = [a] →
        ∃ e : GoError,
          (handlePacket 0xB0 0x90 [failHandler 1 "one", okHandler 2, failHandler 3 "three"]
            (okPacket 0xB0 3 64) world0).1 = some e ∧ e.Error = a.Error) ∧
      (∀ a b : GoError, (new.filterMap fun c => c.result) = [a, b] →
        ∃ e : GoError,
          (handlePacket 0xB0 0x90 [failHandler 1 "one", okHandler 2, failHandler 3 "three"]
            (okPacket 0xB0 3 64) world0).1 = some e ∧
          e.Error = a.Error ++ ", and " ++ b.Error) :=
  ⟨rfl, Or.inl (by decide), by decide,
    handlePacket_joins_handler_errors 0xB0 0x90
      [failHandler 1 "one", okHandler 2, failHandler 3 "three"] (okPacket 0xB0 3 64) world0
      rfl (Or.inl (by decide))⟩

/-- C6: for a Control-Change or Note packet without transport error,
`handlePacket` calls every registered handler exactly once, in registry order
and with one and the same event, whatever the handlers return: the calls it
makes are as many as the handlers, and the i-th call is made on the i-th
handler. -/
theorem handlePacket_calls_each_handler_once {σ : Type} (CC Note : Byte)
    (hs : List (Handler σ)) (p : Packet) (w : World σ)
    (he : p.Err = none) (hst : p.Data 0 = CC ∨ p.Data 0 = Note) :
    ∃ (new : List Call) (m : Method),
      (handlePacket CC Note hs p w).2.calls = w.calls ++ new ∧
      new.length = hs.length ∧
      new.map (fun c => c.handler) = hs.map (fun h => h.ident) ∧
      (∀ c ∈ new, c.method = m) := by
  obtain ⟨new, m, c1, _, c3, _⟩ := handlePacket_delivery CC Note hs p w he hst
  refine ⟨new, m, c1, ?_, handler_of_sig c3, sig_method_of_map c3⟩
  have := congrArg List.length c3
  simpa using this

/-- Witness of C6: a failing handler first, then the same succeeding handler
registered twice, on a Note packet. -/
theorem handlePacket_calls_each_handler_once_witness :
    (okPacket 0x90 37 100).Err = none ∧
    ((okPacket 0x90 37 100).Data 0 = 0xB0 ∨ (okPacket 0x90 37 100).Data 0 = 0x90) ∧
    (handlePacket 0xB0 0x90 [failHandler 1 "one", okHandler 2, okHandler 2]
      (okPacket 0x90 37 100) world0).2.calls =
        [⟨1, Method.Button ⟨5, 100⟩, some (GoError.foreign 1 "one")⟩,
         ⟨2, Method.Button ⟨5, 100⟩, none⟩, ⟨2, Method.Button ⟨5, 100⟩, none⟩] ∧
    ∃ (new : List Call) (m : Method),
      (handlePacket 0xB0 0x90 [failHandler 1 "one", okHandler 2, okHandler 2]
        (okPacket 0x90 37 100) world0).2.calls = world0.calls ++ new ∧
      new.length = [failHandler 1 "one", okHandler 2, okHandler 2].length ∧
      new.map (fun c => c.handler) =
        [failHandler 1 "one", okHandler 2, okHandler 2].map (fun h => h.ident) ∧
      (∀ c ∈ new, c.method = m) :=
  ⟨rfl, Or.inr (by decide), by decide,
    handlePacket_calls_each_handler_once 0xB0 0x90
      [failHandler 1 "one", okHandler 2, okHandler 2] (okPacket 0x90 37 100) world0
      rfl (Or.inr (by decide))⟩

/-! ## Auxiliary facts about the dispatch loop -/

theorem handlePacket_sigs {σ : Type} (CC Note : Byte) (hs : List (Handler σ)) (p : Packet)
    (w : World σ) :
    ∃ new : List Call,
      (handlePacket CC Note hs p w).2.calls = w.calls ++ new ∧
      new.map Call.sig =
        (match specDecode CC Note p with
          | some ev => hs.map fun h => (h.ident, ev)
          | none => []) := by
  cases he : p.Err with
  | some e =>
    refine ⟨[], ?_, ?_⟩
    · rw [handlePacket_err CC Note hs p w e he]; simp
    · simp [specDecode, he]
  | none =>
    by_cases hcc : p.Data 0 = CC
    · obtain ⟨new, c1, _, c3, _⟩ := handlePacket_cc CC Note hs p w he hcc
      exact ⟨new, c1, by simp [specDecode, he, hcc, c3]⟩
    · by_cases hn : p.Data 0 = Note
      · obtain ⟨new, c1, _, c3, _⟩ := handlePacket_note CC Note hs p w he hcc hn
        refine ⟨new, c1, ?_⟩
        rw [c3]
        subst hn
        simp only [specDecode, he, hcc, if_false, if_true]
      · refine ⟨[], ?_, ?_⟩
        · rw [handlePacket_other CC Note hs p w he hcc hn]; simp
        · simp [specDecode, he, hcc, hn]

theorem handlersStep_pkt_handlers {σ : Type} (CC Note : Byte) (s : LoopState σ) (p : Packet) :
    (handlersStep CC Note s (.pkt p)).handlers = s.handlers := by
  simp only [handlersStep]
  split <;> rfl

theorem handlersStep_pkt_calls {σ : Type} (CC Note : Byte) (s : LoopState σ) (p : Packet) :
    (handlersStep CC Note s (.pkt p)).world.calls =
      (handlePacket CC Note s.handlers p s.world).2.calls := by
  simp only [handlersStep]
  split <;> rename_i h <;> rw [h]

theorem handlersFrom_handlers {σ : Type} (CC Note : Byte) (inputs : List (Input σ)) :
    ∀ s : LoopState σ,
      (handlersFrom CC Note s inputs).handlers = s.handlers ++ registered inputs := by
  induction inputs with
  | nil => intro s; simp [handlersFrom, registered]
  | cons x xs ih =>
    intro s
    have hstep : handlersFrom CC Note s (x :: xs) =
        handlersFrom CC Note (handlersStep CC Note s x) xs := rfl
    rw [hstep, ih]
    cases x with
    | pkt p => rw [handlersStep_pkt_handlers]; simp [registered]
    | hch h => simp [handlersStep, registered]

theorem handlers_concat {σ : Type} (CC Note : Byte) (w : World σ) (inputs : List (Input σ))
    (x : Input σ) :
    handlers CC Note w (inputs ++ [x]) = handlersStep CC Note (handlers CC Note w inputs) x := by
  simp [handlers, handlersFrom, List.foldl_append]

theorem handlers_registry {σ : Type} (CC Note : Byte) (w : World σ)
    (inputs : List (Input σ)) :
    (handlers CC Note w inputs).handlers = registered inputs := by
  have := handlersFrom_handlers CC Note inputs { handlers := [], world := w }
  simpa [handlers] using this

/-- The deliveries one loop iteration owes, given the registry it starts with. -/
theorem handlersStep_sigs {σ : Type} (CC Note : Byte) (s : LoopState σ) (x : Input σ) :
    ∃ new : List Call,
      (handlersStep CC Note s x).world.calls = s.world.calls ++ new ∧
      new.map Call.sig =
        (match x with
          | .pkt p =>
            (match specDecode CC Note p with
              | some ev => s.handlers.map fun h => (h.ident, ev)
              | none => [])
          | .hch _ => []) := by
  cases x with
  | pkt p =>
    obtain ⟨new, c1, c2⟩ := handlePacket_sigs CC Note s.handlers p s.world
    exact ⟨new, by rw [handlersStep_pkt_calls, c1], c2⟩
  | hch h => exact ⟨[], by simp [handlersStep], rfl⟩

theorem specDeliveredAt_concat_lt {σ : Type} (CC Note : Byte) (inputs : List (Input σ))
    (x : Input σ) (i : Nat) (hi : i < inputs.length) :
    specDeliveredAt CC Note (inputs ++ [x]) i = specDeliveredAt CC Note inputs i := by
  simp only [specDeliveredAt, List.getElem?_append_left hi,
    List.take_append_of_le_length (Nat.le_of_lt hi)]

theorem specDeliveredAt_concat_last {σ : Type} (CC Note : Byte) (inputs : List (Input σ))
    (x : Input σ) :
    specDeliveredAt CC Note (inputs ++ [x]) inputs.length =
      (match x with
        | .pkt p =>
          (match specDecode CC Note p with
            | some ev => (registered inputs).map fun h => (h.ident, ev)
            | none => [])
        | .hch _ => []) := by
  simp only [specDeliveredAt, List.getElem?_concat_length, List.take_left]
  cases x <;> rfl

theorem specDeliveries_concat {σ : Type} (CC Note : Byte) (inputs : List (Input σ))
    (x : Input σ) :
    specDeliveries CC Note (inputs ++ [x]) =
      specDeliveries CC Note inputs ++ specDeliveredAt CC Note (inputs ++ [x]) inputs.length := by
  simp only [specDeliveries, List.length_append, List.length_singleton, List.range_succ,
    List.flatMap_append, List.flatMap_singleton]
  congr 1
  apply List.flatMap_congr
  intro i hi
  exact specDeliveredAt_concat_lt CC Note inputs x i (List.mem_range.mp hi)

theorem handlers_sigs {σ : Type} (CC Note : Byte) (w : World σ) (inputs : List (Input σ)) :
    ∃ new : List Call,
      (handlers CC Note w inputs).world.calls = w.calls ++ new ∧
      new.map Call.sig = specDeliveries CC Note inputs := by
  induction inputs using List.reverseRecOn with
  | nil => exact ⟨[], by simp [handlers, handlersFrom], rfl⟩
  | append_singleton xs x ih =>
    obtain ⟨new, c1, c2⟩ := ih
    obtain ⟨more, d1, d2⟩ := handlersStep_sigs CC Note (handlers CC Note w xs) x
    refine ⟨new ++ more, ?_, ?_⟩
    · rw [handlers_concat, d1, c1, List.append_assoc]
    · rw [List.map_append, c2, d2, specDeliveries_concat, specDeliveredAt_concat_last,
        handlers_registry]

theorem mem_registered_take {σ : Type} (inputs : List (Input σ)) (i : Nat) (h : Handler σ) :
    h ∈ registered (inputs.take i) ↔ ∃ j, j < i ∧ inputs[j]? = some (.hch h) := by
  constructor
  · intro hm
    obtain ⟨x, hx, hxh⟩ := List.mem_filterMap.mp hm
    obtain ⟨j, hj⟩ := List.mem_iff_getElem?.mp hx
    have hlt : j < i := by
      by_contra hge
      rw [List.getElem?_take_eq_none (Nat.le_of_not_lt hge)] at hj
      cases hj
    rw [List.getElem?_take_of_lt hlt] at hj
    refine ⟨j, hlt, ?_⟩
    cases x with
    | pkt p => cases hxh
    | hch g =>
      have : g = h := by simpa using hxh
      rw [hj, this]
  · rintro ⟨j, hlt, hj⟩
    refine List.mem_filterMap.mpr ⟨.hch h, ?_, rfl⟩
    exact List.mem_iff_getElem?.mpr ⟨j, by rw [List.getElem?_take_of_lt hlt]; exact hj⟩

/-! ## Properties of the dispatch loop -/

/-- C7: for every finite interleaving of registration requests and packets, the
calls the dispatch loop makes on handlers are, in packet order, for each packet
that decodes (no transport error, status `midi.CC` or `midi.Note`) one call
with its event per registration processed before that packet, in registration
order, and nothing else: a packet that does not decode and a registration
cause no call, and a handler registered after a packet never receives that
packet's event. With one handler registered beforehand, the packets
`{CC,3,64}`, `{Note,37,100}`, `{0x99,0,0}` deliver `Encoder{3,64}` then
`Button{5,100}` and nothing else. -/
theorem handlers_delivers_after_registration {σ : Type} (CC Note : Byte) (w : World σ)
    (inputs : List (Input σ)) :
    (∃ new : List Call,
      (handlers CC Note w inputs).world.calls = w.calls ++ new ∧
      new.map Call.sig = specDeliveries CC Note inputs) ∧
    (∀ (i : Nat) (p : Packet), inputs[i]? = some (.pkt p) →
      ∀ (k : Nat) (m : Method), (k, m) ∈ specDeliveredAt CC Note inputs i ↔
        (specDecode CC Note p = some m ∧
          ∃ (j : Nat) (h : Handler σ), j < i ∧ inputs[j]? = some (.hch h) ∧ h.ident = k)) ∧
    (∀ (i : Nat) (h : Handler σ), inputs[i]? = some (.hch h) →
      specDeliveredAt CC Note inputs i = []) ∧
    (CC ≠ Note → CC ≠ 0x99 → Note ≠ 0x99 → ∀ h : Handler σ,
      ∃ new : List Call,
        (handlers CC Note w [.hch h, .pkt (okPacket CC 3 64), .pkt (okPacket Note 37 100),
          .pkt (okPacket 0x99 0 0)]).world.calls = w.calls ++ new ∧
        new.map Call.sig =
          [(h.ident, Method.Encoder ⟨3, 64⟩), (h.ident, Method.Button ⟨5, 100⟩)]) := by
  refine ⟨handlers_sigs CC Note w inputs, ?_, ?_, ?_⟩
  · intro i p hi k m
    simp only [specDeliveredAt, hi]
    cases hd : specDecode CC Note p with
    | none => simp
    | some ev =>
      simp only [List.mem_map, Prod.mk.injEq, Option.some.injEq]
      constructor
      · rintro ⟨h, hm, hk, hev⟩
        obtain ⟨j, hlt, hj⟩ := (mem_registered_take inputs i h).mp hm
        exact ⟨hev, j, h, hlt, hj, hk⟩
      · rintro ⟨hev, j, h, hlt, hj, hk⟩
        exact ⟨h, (mem_registered_take inputs i h).mpr ⟨j, hlt, hj⟩, hk, hev⟩
  · intro i h hi
    simp only [specDeliveredAt, hi]
  · intro h1 h2 h3 h
    have e1 : (0x99 : Byte) ≠ CC := fun e => h2 e.symm
    have e2 : (0x99 : Byte) ≠ Note := fun e => h3 e.symm
    have e3 : Note ≠ CC := fun e => h1 e.symm
    obtain ⟨new, c1, c2⟩ := handlers_sigs CC Note w
      [.hch h, .pkt (okPacket CC 3 64), .pkt (okPacket Note 37 100), .pkt (okPacket 0x99 0 0)]
    refine ⟨new, c1, ?_⟩
    rw [c2]
    simp [specDeliveries, specDeliveredAt, specDecode, registered, okPacket, mkData,
      List.range_succ, e1, e2, e3]
    decide

/-- Witness of C7: the specification's example, run on the code. -/
theorem handlers_delivers_after_registration_witness :
    (0xB0 : Byte) ≠ 0x90 ∧ (0xB0 : Byte) ≠ 0x99 ∧ (0x90 : Byte) ≠ 0x99 ∧
    (handlers 0xB0 0x90 world0 sampleInputs).world.calls =
      [⟨1, Method.Encoder ⟨3, 64⟩, none⟩, ⟨1, Method.Button ⟨5, 100⟩, none⟩] ∧
    (∃ new : List Call,
      (handlers 0xB0 0x90 world0 sampleInputs).world.calls = world0.calls ++ new ∧
      new.map Call.sig = specDeliveries 0xB0 0x90 sampleInputs) ∧
    (∃ new : List Call,
      (handlers 0xB0 0x90 world0
        [.hch (okHandler 1), .pkt (okPacket 0xB0 3 64), .pkt (okPacket 0x90 37 100),
          .pkt (okPacket 0x99 0 0)]).world.calls = world0.calls ++ new ∧
      new.map Call.sig =
        [((okHandler 1).ident, Method.Encoder ⟨3, 64⟩),
          ((okHandler 1).ident, Method.Button ⟨5, 100⟩)]) :=
  ⟨by decide, by decide, by decide, by decide,
    (handlers_delivers_after_registration 0xB0 0x90 world0 sampleInputs).1,
    (handlers_delivers_after_registration 0xB0 0x90 world0 sampleInputs).2.2.2
      (by decide) (by decide) (by decide) (okHandler 1)⟩

/-- C8: the registry of the dispatch loop starts empty; an iteration that
processes a packet leaves it unchanged, whether handling the packet succeeds or
fails; an iteration that processes a registration request appends the handler
at the end. After any finite sequence of inputs the registry is the list of the
handlers registered so far, in registration order and with repetitions, and
running the loop further only extends it at the end. -/
theorem handlers_registry_append_only {σ : Type} (CC Note : Byte) (w : World σ)
    (inputs : List (Input σ)) :
    (handlers CC Note w []).handlers = [] ∧
    (∀ (s : LoopState σ) (p : Packet),
      (handlersStep CC Note s (.pkt p)).handlers = s.handlers) ∧
    (∀ (s : LoopState σ) (h : Handler σ),
      (handlersStep CC Note s (.hch h)).handlers = s.handlers ++ [h]) ∧
    (handlers CC Note w inputs).handlers = registered inputs ∧
    (∀ more : List (Input σ),
      (handlers CC Note w (inputs ++ more)).handlers =
        (handlers CC Note w inputs).handlers ++ registered more) := by
  refine ⟨rfl, handlersStep_pkt_handlers CC Note, fun s h => rfl,
    handlers_registry CC Note w inputs, ?_⟩
  intro more
  rw [handlers_registry, handlers_registry, registered, List.filterMap_append]
  rfl

/-- Witness of C8: a handler registered twice, around a failing packet. -/
theorem handlers_registry_append_only_witness :
    ((handlers 0xB0 0x90 world0
        [.hch (okHandler 1), .pkt (okPacket 0x99 0 0), .hch (okHandler 2),
          .hch (okHandler 1)]).handlers.map fun h => h.ident) = [1, 2, 1] ∧
    (handlers 0xB0 0x90 world0
        [.hch (okHandler 1), .pkt (okPacket 0x99 0 0), .hch (okHandler 2),
          .hch (okHandler 1)]).handlers =
      registered [.hch (okHandler 1), .pkt (okPacket 0x99 0 0), .hch (okHandler 2),
          .hch (okHandler 1)] :=
  ⟨by decide, (handlers_registry_append_only 0xB0 0x90 world0 _).2.2.2.1⟩

/-! ## The world as a frame: `handlePacket` reads only the handlers' state -/

theorem World.after_fresh {σ : Type} (w : World σ) : w.after w.fresh = w := by
  cases w
  simp [World.after, World.fresh]

theorem encoderLoop_frame {σ : Type} (enc : Encoder) (hs : List (Handler σ)) :
    ∀ (errs : List String) (w : World σ),
      encoderLoop enc hs errs w =
        ((encoderLoop enc hs errs w.fresh).1, w.after (encoderLoop enc hs errs w.fresh).2) := by
  induction hs with
  | nil => intro errs w; simp [encoderLoop, World.after_fresh]
  | cons h hs ih =>
    intro errs w
    cases hr : (h.Encoder enc w.st).1 with
    | none =>
      simp only [encoderLoop, callEncoder, hr, World.fresh]
      rw [ih errs { st := _, calls := w.calls ++ _, stderr := _ },
        ih errs { st := _, calls := [] ++ _, stderr := [] }]
      simp [World.after, World.fresh]
    | some e =>
      simp only [encoderLoop, callEncoder, hr, World.fresh]
      rw [ih _ { st := _, calls := w.calls ++ _, stderr := _ },
        ih _ { st := _, calls := [] ++ _, stderr := [] }]
      simp [World.after, World.fresh]

theorem buttonLoop_frame {σ : Type} (btn : Button) (hs : List (Handler σ)) :
    ∀ (errs : List String) (w : World σ),
      buttonLoop btn hs errs w =
        ((buttonLoop btn hs errs w.fresh).1, w.after (buttonLoop btn hs errs w.fresh).2) := by
  induction hs with
  | nil => intro errs w; simp [buttonLoop, World.after_fresh]
  | cons h hs ih =>
    intro errs w
    cases hr : (h.Button btn w.st).1 with
    | none =>
      simp only [buttonLoop, callButton, hr, World.fresh]
      rw [ih errs { st := _, calls := w.calls ++ _, stderr := _ },
        ih errs { st := _, calls := [] ++ _, stderr := [] }]
      simp [World.after, World.fresh]
    | some e =>
      simp only [buttonLoop, callButton, hr, World.fresh]
      rw [ih _ { st := _, calls := w.calls ++ _, stderr := _ },
        ih _ { st := _, calls := [] ++ _, stderr := [] }]
      simp [World.after, World.fresh]

theorem handlePacket_cc_eq {σ : Type} (CC Note : Byte) (hs : List (Handler σ)) (p : Packet)
    (w : World σ) (he : p.Err = none) (hcc : p.Data 0 = CC) :
    handlePacket CC Note hs p w =
      (joined (encoderLoop ⟨((p.Data 1).val : Int), ((p.Data 2).val : Int)⟩ hs [] w).1,
        (encoderLoop ⟨((p.Data 1).val : Int), ((p.Data 2).val : Int)⟩ hs [] w).2) := by
  simp only [handlePacket, he, hcc, if_true, joined]
  split <;> rfl

theorem handlePacket_note_eq {σ : Type} (CC Note : Byte) (hs : List (Handler σ)) (p : Packet)
    (w : World σ) (he : p.Err = none) (hcc : p.Data 0 ≠ CC) (hn : p.Data 0 = Note) :
    handlePacket CC Note hs p w =
      (joined (buttonLoop ⟨((p.Data 1).val : Int) - 32, ((p.Data 2).val : Int)⟩ hs [] w).1,
        (buttonLoop ⟨((p.Data 1).val : Int) - 32, ((p.Data 2).val : Int)⟩ hs [] w).2) := by
  subst hn
  simp only [handlePacket, he, hcc, if_true, if_false, joined]
  split <;> rfl

theorem handlePacket_frame {σ : Type} (CC Note : Byte) (hs : List (Handler σ)) (p : Packet)
    (w : World σ) :
    handlePacket CC Note hs p w =
      ((handlePacket CC Note hs p w.fresh).1, w.after (handlePacket CC Note hs p w.fresh).2) := by
  cases he : p.Err with
  | some e => simp [handlePacket, he, World.after_fresh]
  | none =>
    by_cases hcc : p.Data 0 = CC
    · rw [handlePacket_cc_eq CC Note hs p w he hcc,
        handlePacket_cc_eq CC Note hs p w.fresh he hcc, encoderLoop_frame _ hs [] w]
    · by_cases hn : p.Data 0 = Note
      · rw [handlePacket_note_eq CC Note hs p w he hcc hn,
          handlePacket_note_eq CC Note hs p w.fresh he hcc hn, buttonLoop_frame _ hs [] w]
      · simp [handlePacket, he, hcc, hn, World.after_fresh]

theorem handlePacket_stderr {σ : Type} (CC Note : Byte) (hs : List (Handler σ)) (p : Packet)
    (w : World σ) : (handlePacket CC Note hs p w).2.stderr = w.stderr := by
  cases he : p.Err with
  | some e => rw [handlePacket_err CC Note hs p w e he]
  | none =>
    by_cases hcc : p.Data 0 = CC
    · exact (handlePacket_cc CC Note hs p w he hcc).choose_spec.2.1
    · by_cases hn : p.Data 0 = Note
      · exact (handlePacket_note CC Note hs p w he hcc hn).choose_spec.2.1
      · rw [handlePacket_other CC Note hs p w he hcc hn]

theorem handlersStep_pkt_st {σ : Type} (CC Note : Byte) (s : LoopState σ) (p : Packet) :
    (handlersStep CC Note s (.pkt p)).world.st =
      (handlePacket CC Note s.handlers p s.world).2.st := by
  simp only [handlersStep]
  split <;> rename_i h <;> rw [h]

theorem handlersStep_pkt_stderr {σ : Type} (CC Note : Byte) (s : LoopState σ) (p : Packet)
    (e : GoError) (he : (handlePacket CC Note s.handlers p s.world).1 = some e) :
    (handlersStep CC Note s (.pkt p)).world.stderr = s.world.stderr ++ [diagLine e p.Data] := by
  have hst := handlePacket_stderr CC Note s.handlers p s.world
  simp only [handlersStep]
  split <;> rename_i r w h <;> rw [h] at he hst
  · cases he
    simp only at hst
    rw [hst]
  · cases he

theorem handlePacket_same_state {σ : Type} (CC Note : Byte) (hs : List (Handler σ))
    (q : Packet) (w1 w0 : World σ) (hst : w1.st = w0.st) :
    (handlePacket CC Note hs q w1).1 = (handlePacket CC Note hs q w0).1 ∧
    (handlePacket CC Note hs q w1).2.st = (handlePacket CC Note hs q w0).2.st ∧
    ∃ new : List Call,
      (handlePacket CC Note hs q w1).2.calls = w1.calls ++ new ∧
      (handlePacket CC Note hs q w0).2.calls = w0.calls ++ new := by
  have hfresh : w1.fresh = w0.fresh := by simp [World.fresh, hst]
  rw [handlePacket_frame CC Note hs q w1, handlePacket_frame CC Note hs q w0, hfresh]
  exact ⟨rfl, rfl, _, rfl, rfl⟩

/-- C9, as stated, fails: the result of the packet that follows a failing packet
is not always what it would have been without the failing packet. With one
registered handler that fails on the first call it ever receives, the packet
`{CC,1,1}` fails; after it the packet `{CC,2,2}` is handled without error,
whereas without it the same packet fails. -/
theorem handlers_next_result_differs :
    (handlePacket 0xB0 0x90 [flakyHandler 1] (okPacket 0xB0 1 1) world0).1 =
      some (GoError.new "first call") ∧
    (handlePacket 0xB0 0x90
      (handlersStep 0xB0 0x90 { handlers := [flakyHandler 1], world := world0 }
        (.pkt (okPacket 0xB0 1 1))).handlers
      (okPacket 0xB0 2 2)
      (handlersStep 0xB0 0x90 { handlers := [flakyHandler 1], world := world0 }
        (.pkt (okPacket 0xB0 1 1))).world).1 = none ∧
    (handlePacket 0xB0 0x90 [flakyHandler 1] (okPacket 0xB0 2 2) world0).1 =
      some (GoError.new "first call") := by
  decide

/-- C9, amended: after a packet whose handling fails the loop goes on with the
inputs that follow, the failure having been written as one line to the error
stream, and its registry is unchanged; the packet that follows is delivered as
the same event to the same handlers in the same order as it would have been had
the failing packet never arrived. A packet failing by a transport error or an
unrecognized status byte calls no handler and leaves the handlers' state as it
was; and whenever the handlers' state is as it was, the packet that follows has
the same result, the same calls with the same returned values, and leaves the
same handlers' state. -/
theorem handlers_next_packet_after_failure {σ : Type} (CC Note : Byte)
    (s s1 : LoopState σ) (p q : Packet) (rest : List (Input σ))
    (hfail : (handlePacket CC Note s.handlers p s.world).1 ≠ none)
    (hs1 : s1 = handlersStep CC Note s (.pkt p)) :
    handlersFrom CC Note s (.pkt p :: .pkt q :: rest) =
      handlersFrom CC Note (handlersStep CC Note s1 (.pkt q)) rest ∧
    (∃ e : GoError, (handlePacket CC Note s.handlers p s.world).1 = some e ∧
      s1.world.stderr = s.world.stderr ++ [diagLine e p.Data]) ∧
    s1.handlers = s.handlers ∧
    (∃ new1 new0 : List Call,
      (handlePacket CC Note s1.handlers q s1.world).2.calls = s1.world.calls ++ new1 ∧
      (handlePacket CC Note s.handlers q s.world).2.calls = s.world.calls ++ new0 ∧
      new1.map Call.sig = new0.map Call.sig) ∧
    ((p.Err ≠ none ∨ (p.Data 0 ≠ CC ∧ p.Data 0 ≠ Note)) →
      s1.world.st = s.world.st ∧ s1.world.calls = s.world.calls) ∧
    (s1.world.st = s.world.st →
      (handlePacket CC Note s1.handlers q s1.world).1 =
        (handlePacket CC Note s.handlers q s.world).1 ∧
      (handlePacket CC Note s1.handlers q s1.world).2.st =
        (handlePacket CC Note s.handlers q s.world).2.st ∧
      ∃ new : List Call,
        (handlePacket CC Note s1.handlers q s1.world).2.calls = s1.world.calls ++ new ∧
        (handlePacket CC Note s.handlers q s.world).2.calls = s.world.calls ++ new) := by
  have hreg : s1.handlers = s.handlers := by rw [hs1, handlersStep_pkt_handlers]
  obtain ⟨e, he⟩ := Option.ne_none_iff_exists.mp hfail
  refine ⟨by rw [hs1]; rfl, ⟨e, he.symm, ?_⟩, hreg, ?_, ?_, ?_⟩
  · rw [hs1]
    exact handlersStep_pkt_stderr CC Note s p e he.symm
  · obtain ⟨new1, a1, a2⟩ := handlePacket_sigs CC Note s1.handlers q s1.world
    obtain ⟨new0, b1, b2⟩ := handlePacket_sigs CC Note s.handlers q s.world
    exact ⟨new1, new0, a1, b1, by rw [a2, b2, hreg]⟩
  · intro hno
    rw [hs1, handlersStep_pkt_st, handlersStep_pkt_calls]
    rcases hno with herr | ⟨hcc, hn⟩
    · obtain ⟨e1, he1⟩ := Option.ne_none_iff_exists.mp herr
      rw [handlePacket_err CC Note s.handlers p s.world e1 he1.symm]
      exact ⟨rfl, rfl⟩
    · cases hpe : p.Err with
      | some e1 =>
        rw [handlePacket_err CC Note s.handlers p s.world e1 hpe]
        exact ⟨rfl, rfl⟩
      | none =>
        rw [handlePacket_other CC Note s.handlers p s.world hpe hcc hn]
        exact ⟨rfl, rfl⟩
  · intro hst
    rw [hreg]
    exact handlePacket_same_state CC Note s.handlers q s1.world s.world hst

/-- Witness of the amended C9: a packet that fails by a handler error, followed
by a Note packet and one more input. -/
theorem handlers_next_packet_after_failure_witness :
    (handlePacket 0xB0 0x90 [failHandler 1 "boom"] (okPacket 0xB0 1 1) world0).1 ≠ none ∧
    (handlersStep 0xB0 0x90 { handlers := [failHandler 1 "boom"], world := world0 }
        (.pkt (okPacket 0xB0 1 1))).handlers.map (fun h => h.ident) = [1] ∧
    (∃ new1 new0 : List Call,
      (handlePacket 0xB0 0x90
        (handlersStep 0xB0 0x90 { handlers := [failHandler 1 "boom"], world := world0 }
          (.pkt (okPacket 0xB0 1 1))).handlers (okPacket 0x90 37 100)
        (handlersStep 0xB0 0x90 { handlers := [failHandler 1 "boom"], world := world0 }
          (.pkt (okPacket 0xB0 1 1))).world).2.calls =
        (handlersStep 0xB0 0x90 { handlers := [failHandler 1 "boom"], world := world0 }
          (.pkt (okPacket 0xB0 1 1))).world.calls ++ new1 ∧
      (handlePacket 0xB0 0x90 [failHandler 1 "boom"] (okPacket 0x90 37 100) world0).2.calls =
        world0.calls ++ new0 ∧
      new1.map Call.sig = new0.map Call.sig) :=
  ⟨by decide, by decide,
    (handlers_next_packet_after_failure 0xB0 0x90
      { handlers := [failHandler 1 "boom"], world := world0 }
      (handlersStep 0xB0 0x90 { handlers := [failHandler 1 "boom"], world := world0 }
        (.pkt (okPacket 0xB0 1 1)))
      (okPacket 0xB0 1 1) (okPacket 0x90 37 100) [] (by decide) rfl).2.2.2.1⟩

/-- C10 holds of the documentation and fails on the code: the comment on
`Button` says the buttons are numbered 1 to 13, yet on the Note packet
`{0x90, 0, 100}`, read without transport error, `handlePacket` calls the
handler's `Button` method with Index -32, which is not between 1 and 13. -/
theorem handlePacket_button_index_out_of_range :
    (okPacket 0x90 0 100).Err = none ∧ (okPacket 0x90 0 100).Data 0 = 0x90 ∧
    (handlePacket 0xB0 0x90 [okHandler 1] (okPacket 0x90 0 100) world0).2.calls =
      [⟨1, Method.Button ⟨-32, 100⟩, none⟩] ∧
    ¬ ((1 : Int) ≤ -32 ∧ (-32 : Int) ≤ 13) := by
  decide

/-- The extent of the defect behind C10: for every Note packet without
transport error, the Index that `handlePacket` passes to the handlers' `Button`
method is the integer `d1 - 32`, where `d1` is the packet's second byte, with
no check; it lies between -32 and 223, and it is in the documented range 1..13
only when `d1` is in 33..45. -/
theorem handlePacket_button_index_range {σ : Type} (CC Note : Byte)
    (hs : List (Handler σ)) (p : Packet) (w : World σ)
    (he : p.Err = none) (hnote : p.Data 0 = Note) (hdistinct : CC ≠ Note) :
    ∃ new : List Call,
      (handlePacket CC Note hs p w).2.calls = w.calls ++ new ∧
      new.length = hs.length ∧
      ∀ c ∈ new, ∃ b : Button, c.method = Method.Button b ∧
        b.Index = ((p.Data 1).val : Int) - 32 ∧
        -32 ≤ b.Index ∧ b.Index ≤ 223 ∧
        ((1 ≤ b.Index ∧ b.Index ≤ 13) ↔ (33 ≤ (p.Data 1).val ∧ (p.Data 1).val ≤ 45)) := by
  have hne : p.Data 0 ≠ CC := fun h => hdistinct (h.symm.trans hnote)
  obtain ⟨new, c1, _, c3, _⟩ := handlePacket_note CC Note hs p w he hne hnote
  refine ⟨new, c1, by simpa using congrArg List.length c3, ?_⟩
  intro c hc
  refine ⟨_, sig_method_of_map c3 c hc, rfl, ?_, ?_, ?_⟩
  · show (-32 : Int) ≤ ((p.Data 1).val : Int) - 32
    omega
  · show ((p.Data 1).val : Int) - 32 ≤ 223
    omega
  · show (1 ≤ ((p.Data 1).val : Int) - 32 ∧ ((p.Data 1).val : Int) - 32 ≤ 13) ↔ _
    omega

/-- An instance of the previous fact: the Note packet `{0x90, 37, 100}`, whose
index is 5. -/
theorem handlePacket_button_index_range_witness :
    (okPacket 0x90 37 100).Err = none ∧ (okPacket 0x90 37 100).Data 0 = 0x90 ∧
    (0xB0 : Byte) ≠ 0x90 ∧
    ∃ new : List Call,
      (handlePacket 0xB0 0x90 [okHandler 1] (okPacket 0x90 37 100) world0).2.calls =
        world0.calls ++ new ∧
      new.length = [okHandler 1].length ∧
      ∀ c ∈ new, ∃ b : Button, c.method = Method.Button b ∧
        b.Index = (((okPacket 0x90 37 100).Data 1).val : Int) - 32 ∧
        -32 ≤ b.Index ∧ b.Index ≤ 223 ∧
        ((1 ≤ b.Index ∧ b.Index ≤ 13) ↔
          (33 ≤ ((okPacket 0x90 37 100).Data 1).val ∧
            ((okPacket 0x90 37 100).Data 1).val ≤ 45)) :=
  ⟨rfl, by decide, by decide,
    handlePacket_button_index_range 0xB0 0x90 [okHandler 1] (okPacket 0x90 37 100) world0
      rfl (by decide) (by decide)⟩

/-- C11 holds of the documentation and fails on the code: the comment on
`Encoder` says the encoders are numbered 1 to 32, yet on the Control-Change
packet `{0xB0, 0, 64}`, read without transport error, `handlePacket` calls the
handler's `Encoder` method with Index 0, and on `{0xB0, 200, 64}` with Index
200; neither is between 1 and 32. -/
theorem handlePacket_encoder_index_out_of_range :
    (okPacket 0xB0 0 64).Err = none ∧ (okPacket 0xB0 0 64).Data 0 = 0xB0 ∧
    (handlePacket 0xB0 0x90 [okHandler 1] (okPacket 0xB0 0 64) world0).2.calls =
      [⟨1, Method.Encoder ⟨0, 64⟩, none⟩] ∧
    (handlePacket 0xB0 0x90 [okHandler 1] (okPacket 0xB0 200 64) world0).2.calls =
      [⟨1, Method.Encoder ⟨200, 64⟩, none⟩] ∧
    ¬ ((1 : Int) ≤ 0 ∧ (0 : Int) ≤ 32) ∧ ¬ ((1 : Int) ≤ 200 ∧ (200 : Int) ≤ 32) := by
  decide

/-- The extent of the defect behind C11: for every Control-Change packet
without transport error, the Index that `handlePacket` passes to the handlers'
`Encoder` method is the packet's second byte `d1` as an unsigned integer, with
no check; it lies between 0 and 255, and it is in the documented range 1..32
only when `d1` is in 1..32. -/
theorem handlePacket_encoder_index_range {σ : Type} (CC Note : Byte)
    (hs : List (Handler σ)) (p : Packet) (w : World σ)
    (he : p.Err = none) (hcc : p.Data 0 = CC) :
    ∃ new : List Call,
      (handlePacket CC Note hs p w).2.calls = w.calls ++ new ∧
      new.length = hs.length ∧
      ∀ c ∈ new, ∃ e : Encoder, c.method = Method.Encoder e ∧
        e.Index = ((p.Data 1).val : Int) ∧
        0 ≤ e.Index ∧ e.Index ≤ 255 ∧
        ((1 ≤ e.Index ∧ e.Index ≤ 32) ↔ (1 ≤ (p.Data 1).val ∧ (p.Data 1).val ≤ 32)) := by
  obtain ⟨new, c1, _, c3, _⟩ := handlePacket_cc CC Note hs p w he hcc
  refine ⟨new, c1, by simpa using congrArg List.length c3, ?_⟩
  intro c hc
  refine ⟨_, sig_method_of_map c3 c hc, rfl, ?_, ?_, ?_⟩
  · show (0 : Int) ≤ ((p.Data 1).val : Int)
    omega
  · show ((p.Data 1).val : Int) ≤ 255
    omega
  · show (1 ≤ ((p.Data 1).val : Int) ∧ ((p.Data 1).val : Int) ≤ 32) ↔ _
    omega

/-- An instance of the previous fact: the Control-Change packet
`{0xB0, 3, 64}`, whose index is 3. -/
theorem handlePacket_encoder_index_range_witness :
    (okPacket 0xB0 3 64).Err = none ∧ (okPacket 0xB0 3 64).Data 0 = 0xB0 ∧
    ∃ new : List Call,
      (handlePacket 0xB0 0x90 [okHandler 1] (okPacket 0xB0 3 64) world0).2.calls =
        world0.calls ++ new ∧
      new.length = [okHandler 1].length ∧
      ∀ c ∈ new, ∃ e : Encoder, c.method = Method.Encoder e ∧
        e.Index = (((okPacket 0xB0 3 64).Data 1).val : Int) ∧
        0 ≤ e.Index ∧ e.Index ≤ 255 ∧
        ((1 ≤ e.Index ∧ e.Index ≤ 32) ↔
          (1 ≤ ((okPacket 0xB0 3 64).Data 1).val ∧
            ((okPacket 0xB0 3 64).Data 1).val ≤ 32)) :=
  ⟨rfl, by decide,
    handlePacket_encoder_index_range 0xB0 0x90 [okHandler 1] (okPacket 0xB0 3 64) world0
      rfl (by decide)⟩

/-! ## Properties of the connection -/

/-- C14: `SetButton` and `SetEncoder` do nothing and succeed: for every
connection and every argument they return a nil error and leave the connection
as it was, its channel of registration requests included, so nothing is sent
on it. -/
theorem setButton_setEncoder_noop {σ : Type} (c : Code σ) (b : Button) (e : Encoder) :
    (c.SetButton b).1 = none ∧ (c.SetButton b).2 = c ∧
    (c.SetButton b).2.handlers.buf = c.handlers.buf ∧
    (c.SetEncoder e).1 = none ∧ (c.SetEncoder e).2 = c ∧
    (c.SetEncoder e).2.handlers.buf = c.handlers.buf :=
  ⟨rfl, rfl, rfl, rfl, rfl, rfl⟩

/-! ## When `handlePacket` returns nil, and which methods are ever called -/

theorem joined_eq_none_iff (cs : List Call) :
    joined (failures cs) = none ↔ ∀ c ∈ cs, c.result = none := by
  constructor
  · intro h c hc
    by_contra hne
    have hnil := failures_ne_nil cs ⟨c, hc, hne⟩
    rw [joined_of_ne_nil _ hnil] at h
    cases h
  · intro h
    have : failures cs = [] := by
      simp only [failures, List.map_eq_nil_iff, List.filterMap_eq_nil_iff]
      exact h
    rw [this]
    rfl

theorem handlePacket_empty {σ : Type} (CC Note : Byte) (p : Packet) (w : World σ)
    (he : p.Err = none) (hst : p.Data 0 = CC ∨ p.Data 0 = Note) :
    handlePacket CC Note [] p w = (none, w) := by
  by_cases hcc : p.Data 0 = CC
  · rw [handlePacket_cc_eq CC Note [] p w he hcc]
    rfl
  · rw [handlePacket_note_eq CC Note [] p w he hcc (hst.resolve_left hcc)]
    rfl

/-- C16: `handlePacket` returns nil exactly when the packet has no transport
error, its status byte is `midi.CC` or `midi.Note`, and every call it made on a
registered handler returned nil; for such a packet it calls every registered
handler. In particular it returns nil, and does nothing, for a decodable packet
when no handler is registered, and it returns a non-nil error when a handler
returns a non-nil error whose message is the empty string. -/
theorem handlePacket_nil_iff {σ : Type} (CC Note : Byte) (hs : List (Handler σ))
    (p : Packet) (w : World σ) :
    (∃ new : List Call,
      (handlePacket CC Note hs p w).2.calls = w.calls ++ new ∧
      ((handlePacket CC Note hs p w).1 = none ↔
        (p.Err = none ∧ (p.Data 0 = CC ∨ p.Data 0 = Note) ∧ ∀ c ∈ new, c.result = none)) ∧
      (p.Err = none → (p.Data 0 = CC ∨ p.Data 0 = Note) →
        new.map (fun c => c.handler) = hs.map (fun h => h.ident)) ∧
      (p.Err = none → (p.Data 0 = CC ∨ p.Data 0 = Note) →
        (∃ c ∈ new, ∃ e : GoError, c.result = some e ∧ e.Error = "") →
        (handlePacket CC Note hs p w).1 ≠ none)) ∧
    (p.Err = none → (p.Data 0 = CC ∨ p.Data 0 = Note) →
      handlePacket CC Note [] p w = (none, w)) := by
  refine ⟨?_, handlePacket_empty CC Note p w⟩
  cases he : p.Err with
  | some e =>
    refine ⟨[], by rw [handlePacket_err CC Note hs p w e he]; simp, ?_, ?_, ?_⟩
    · rw [handlePacket_err CC Note hs p w e he]
      simp
    · intro h; cases h
    · intro h; cases h
  | none =>
    by_cases hst : p.Data 0 = CC ∨ p.Data 0 = Note
    · obtain ⟨new, m, c1, _, c3, c4⟩ := handlePacket_delivery CC Note hs p w he hst
      refine ⟨new, c1, ?_, fun _ _ => handler_of_sig c3, ?_⟩
      · rw [c4, joined_eq_none_iff]
        simp [hst]
      · rintro _ _ ⟨c, hc, e, hr, _⟩ hnil
        rw [c4, joined_eq_none_iff] at hnil
        rw [hnil c hc] at hr
        cases hr
    · have hcc : p.Data 0 ≠ CC := fun h => hst (Or.inl h)
      have hn : p.Data 0 ≠ Note := fun h => hst (Or.inr h)
      refine ⟨[], by rw [handlePacket_other CC Note hs p w he hcc hn]; simp, ?_,
        fun _ h => absurd h hst, fun _ h => absurd h hst⟩
      rw [handlePacket_other CC Note hs p w he hcc hn]
      simp [hst]

/-- Witness of C16: a handler that fails with the empty message makes
`handlePacket` return a non-nil error (whose message is empty), a handler that
succeeds makes it return nil, and so does the empty registry. -/
theorem handlePacket_nil_iff_witness :
    (handlePacket 0xB0 0x90 [okHandler 1, failHandler 2 ""] (okPacket 0xB0 3 64) world0).1 =
      some (GoError.new "") ∧
    (handlePacket 0xB0 0x90 [okHandler 1] (okPacket 0xB0 3 64) world0).1 = none ∧
    ((okPacket 0x90 37 100).Err = none →
      ((okPacket 0x90 37 100).Data 0 = 0xB0 ∨ (okPacket 0x90 37 100).Data 0 = 0x90) →
      handlePacket 0xB0 0x90 [] (okPacket 0x90 37 100) world0 = (none, world0)) :=
  ⟨by decide, by decide,
    (handlePacket_nil_iff 0xB0 0x90 [okHandler 1] (okPacket 0x90 37 100) world0).2⟩

theorem specDecode_not_err (CC Note : Byte) (p : Packet) (m : Method)
    (h : specDecode CC Note p = some m) : ∀ e : GoError, m ≠ Method.Err e := by
  intro e hm
  subst hm
  unfold specDecode at h
  split at h
  · cases h
  · split at h
    · cases h
    · split at h <;> cases h

theorem specDeliveries_not_err {σ : Type} (CC Note : Byte) (inputs : List (Input σ))
    (k : Nat) (m : Method) (h : (k, m) ∈ specDeliveries CC Note inputs) :
    ∀ e : GoError, m ≠ Method.Err e := by
  obtain ⟨i, _, hi⟩ := List.mem_flatMap.mp h
  cases hx : inputs[i]? with
  | none => simp [specDeliveredAt, hx] at hi
  | some x =>
    cases x with
    | hch g => simp [specDeliveredAt, hx] at hi
    | pkt p =>
      cases hd : specDecode CC Note p with
      | none => simp [specDeliveredAt, hx, hd] at hi
      | some ev =>
        simp only [specDeliveredAt, hx, hd] at hi
        obtain ⟨g, _, hg⟩ := List.mem_map.mp hi
        have hm : ev = m := congrArg Prod.snd hg
        exact specDecode_not_err CC Note p m (hm ▸ hd)

/-- C17: the `Err` method of a handler is never called: for every sequence of
registrations and packets, whatever the packets are (transport error,
unrecognized status byte, events on which handlers fail), every call the
dispatch loop makes on a handler is a call of `Button` or of `Encoder`, and so
is every call a single `handlePacket` makes. -/
theorem handlers_never_calls_err {σ : Type} (CC Note : Byte) (w : World σ)
    (inputs : List (Input σ)) (hs : List (Handler σ)) (p : Packet) :
    (∃ new : List Call,
      (handlers CC Note w inputs).world.calls = w.calls ++ new ∧
      ∀ c ∈ new, (∀ e : GoError, c.method ≠ Method.Err e) ∧
        ((∃ b : Button, c.method = Method.Button b) ∨
          (∃ e : Encoder, c.method = Method.Encoder e))) ∧
    (∃ new : List Call,
      (handlePacket CC Note hs p w).2.calls = w.calls ++ new ∧
      ∀ c ∈ new, ∀ e : GoError, c.method ≠ Method.Err e) := by
  constructor
  · obtain ⟨new, c1, c2⟩ := handlers_sigs CC Note w inputs
    refine ⟨new, c1, ?_⟩
    intro c hc
    have hmem : (c.handler, c.method) ∈ specDeliveries CC Note inputs :=
      c2 ▸ List.mem_map_of_mem Call.sig hc
    have hne := specDeliveries_not_err CC Note inputs c.handler c.method hmem
    refine ⟨hne, ?_⟩
    cases hm : c.method with
    | Button b => exact Or.inl ⟨b, rfl⟩
    | Encoder e => exact Or.inr ⟨e, rfl⟩
    | Err e => exact absurd hm (hne e)
  · obtain ⟨new, c1, c2⟩ := handlePacket_sigs CC Note hs p w
    refine ⟨new, c1, ?_⟩
    intro c hc e hm
    have hmem : (c.handler, c.method) ∈ new.map Call.sig := List.mem_map_of_mem Call.sig hc
    rw [c2] at hmem
    cases hd : specDecode CC Note p with
    | none => rw [hd] at hmem; cases hmem
    | some ev =>
      rw [hd] at hmem
      obtain ⟨g, _, hg⟩ := List.mem_map.mp hmem
      have hev : ev = c.method := congrArg Prod.snd hg
      exact specDecode_not_err CC Note p c.method (hev ▸ hd) e hm

/-- Witness of C17: a run with a transport error, an unrecognized status byte
and a failing handler makes two calls, one of `Encoder` and one of `Button`. -/
theorem handlers_never_calls_err_witness :
    ((handlers 0xB0 0x90 world0
      [.hch (failHandler 1 "boom"), .pkt (errPacket 0xB0 3 64 (GoError.foreign 0 "read")),
        .pkt (okPacket 0xB0 3 64), .pkt (okPacket 0x99 0 0),
        .pkt (okPacket 0x90 37 100)]).world.calls.map fun c => c.method) =
      [Method.Encoder ⟨3, 64⟩, Method.Button ⟨5, 100⟩] ∧
    ∃ new : List Call,
      (handlers 0xB0 0x90 world0 sampleInputs).world.calls = world0.calls ++ new ∧
      ∀ c ∈ new, (∀ e : GoError, c.method ≠ Method.Err e) ∧
        ((∃ b : Button, c.method = Method.Button b) ∨
          (∃ e : Encoder, c.method = Method.Encoder e)) :=
  ⟨by decide,
    (handlers_never_calls_err 0xB0 0x90 world0 sampleInputs [] (okPacket 0x99 0 0)).1⟩

/-! ## The diagnostics written by the dispatch loop -/

theorem diagLine_layout (err : GoError) (d : Fin 3 → Byte) :
    diagLine err d =
      err.Error ++ " (packet [3]uint8\x7b0x" ++ fmtHex (d 0).val ++ ", 0x" ++
        fmtHex (d 1).val ++ ", 0x" ++ fmtHex (d 2).val ++ "\x7d)\n" := by
  have e1 : " (packet " ++ "[3]uint8\x7b0x" = " (packet [3]uint8\x7b0x" := by decide
  have e2 : "\x7d" ++ ")\n" = "\x7d)\n" := by decide
  rw [← e1, ← e2]
  simp only [diagLine, fmtGoSyntax, String.append_assoc]

theorem handlersStep_pkt_stderr_none {σ : Type} (CC Note : Byte) (s : LoopState σ)
    (p : Packet) (he : (handlePacket CC Note s.handlers p s.world).1 = none) :
    (handlersStep CC Note s (.pkt p)).world.stderr = s.world.stderr := by
  have hst := handlePacket_stderr CC Note s.handlers p s.world
  simp only [handlersStep]
  split <;> rename_i r w h <;> rw [h] at he hst
  · cases he
  · exact hst

theorem handlersStep_stderr {σ : Type} (CC Note : Byte) (s : LoopState σ) (x : Input σ) :
    (handlersStep CC Note s x).world.stderr = s.world.stderr ++
      (match x with
        | .pkt p =>
          (match (handlePacket CC Note s.handlers p s.world).1 with
            | some err =>
              [err.Error ++ " (packet [3]uint8\x7b0x" ++ fmtHex (p.Data 0).val ++ ", 0x" ++
                fmtHex (p.Data 1).val ++ ", 0x" ++ fmtHex (p.Data 2).val ++ "\x7d)\n"]
            | none => [])
        | .hch _ => []) := by
  cases x with
  | hch h => simp [handlersStep]
  | pkt p =>
    cases hr : (handlePacket CC Note s.handlers p s.world).1 with
    | none => simp [handlersStep_pkt_stderr_none CC Note s p hr, hr]
    | some e =>
      simp only [handlersStep_pkt_stderr CC Note s p e hr, diagLine_layout, hr]

theorem specDiagAt_concat_lt {σ : Type} (CC Note : Byte) (w : World σ)
    (inputs : List (Input σ)) (x : Input σ) (i : Nat) (hi : i < inputs.length) :
    specDiagAt CC Note w (inputs ++ [x]) i = specDiagAt CC Note w inputs i := by
  simp only [specDiagAt, List.getElem?_append_left hi,
    List.take_append_of_le_length (Nat.le_of_lt hi)]

theorem specDiagAt_concat_last {σ : Type} (CC Note : Byte) (w : World σ)
    (inputs : List (Input σ)) (x : Input σ) :
    specDiagAt CC Note w (inputs ++ [x]) inputs.length =
      (match x with
        | .pkt p =>
          (match (handlePacket CC Note (handlers CC Note w inputs).handlers p
              (handlers CC Note w inputs).world).1 with
            | some err =>
              [err.Error ++ " (packet [3]uint8\x7b0x" ++ fmtHex (p.Data 0).val ++ ", 0x" ++
                fmtHex (p.Data 1).val ++ ", 0x" ++ fmtHex (p.Data 2).val ++ "\x7d)\n"]
            | none => [])
        | .hch _ => []) := by
  simp only [specDiagAt, List.getElem?_concat_length, List.take_left]
  cases x <;> rfl

theorem handlers_stderr {σ : Type} (CC Note : Byte) (w : World σ) (inputs : List (Input σ)) :
    (handlers CC Note w inputs).world.stderr =
      w.stderr ++ (List.range inputs.length).flatMap (specDiagAt CC Note w inputs) := by
  induction inputs using List.reverseRecOn with
  | nil => simp [handlers, handlersFrom]
  | append_singleton xs x ih =>
    rw [handlers_concat, handlersStep_stderr, ih]
    simp only [List.length_append, List.length_singleton, List.range_succ,
      List.flatMap_append, List.flatMap_singleton, specDiagAt_concat_last, List.append_assoc]
    congr 2
    apply List.flatMap_congr
    intro i hi
    exact (specDiagAt_concat_lt CC Note w xs x i (List.mem_range.mp hi)).symm

/-- C15: for every sequence of inputs, what the dispatch loop writes to the
error stream is, in packet order, exactly one line for each packet whose
handling returns an error and nothing for a packet whose handling succeeds or
for a registration; the line is the error's message followed by ` (packet `,
the packet's three bytes in Go syntax, `)` and a newline. With one handler that
never fails registered beforehand, the packets `{CC,3,64}`, `{Note,37,100}`,
`{0x99,0,0}` produce exactly one line, which reports the unrecognized status
byte 99 (hexadecimal) of the packet `{0x99, 0x0, 0x0}`. -/
theorem handlers_diagnostics {σ : Type} (CC Note : Byte) (w : World σ)
    (inputs : List (Input σ)) :
    (handlers CC Note w inputs).world.stderr =
      w.stderr ++ (List.range inputs.length).flatMap (specDiagAt CC Note w inputs) ∧
    (∀ (s : LoopState σ) (p : Packet),
      (handlePacket CC Note s.handlers p s.world).1 = none →
      (handlersStep CC Note s (.pkt p)).world.stderr = s.world.stderr) ∧
    (∀ (s : LoopState σ) (p : Packet) (e : GoError),
      (handlePacket CC Note s.handlers p s.world).1 = some e →
      (handlersStep CC Note s (.pkt p)).world.stderr = s.world.stderr ++
        [e.Error ++ " (packet [3]uint8\x7b0x" ++ fmtHex (p.Data 0).val ++ ", 0x" ++
          fmtHex (p.Data 1).val ++ ", 0x" ++ fmtHex (p.Data 2).val ++ "\x7d)\n"]) ∧
    (∀ (s : LoopState σ) (h : Handler σ),
      (handlersStep CC Note s (.hch h)).world.stderr = s.world.stderr) ∧
    (CC ≠ Note → CC ≠ 0x99 → Note ≠ 0x99 → ∀ h : Handler σ,
      (∀ (b : Button) (st : σ), (h.Button b st).1 = none) →
      (∀ (e : Encoder) (st : σ), (h.Encoder e st).1 = none) →
      (handlers CC Note w [.hch h, .pkt (okPacket CC 3 64), .pkt (okPacket Note 37 100),
          .pkt (okPacket 0x99 0 0)]).world.stderr =
        w.stderr ++
          ["unrecognized status byte: 99 (packet [3]uint8\x7b0x99, 0x0, 0x0\x7d)\n"]) := by
  refine ⟨handlers_stderr CC Note w inputs, handlersStep_pkt_stderr_none CC Note, ?_,
    fun s h => rfl, ?_⟩
  · intro s p e he
    rw [handlersStep_pkt_stderr CC Note s p e he, diagLine_layout]
  · intro h1 h2 h3 h hb henc
    have e1 : (0x99 : Byte) ≠ CC := fun e => h2 e.symm
    have e2 : (0x99 : Byte) ≠ Note := fun e => h3 e.symm
    have e3 : Note ≠ CC := fun e => h1 e.symm
    have hline : diagLine (GoError.new ("unrecognized status byte: " ++ fmtHex 153))
        (mkData 0x99 0 0) =
        "unrecognized status byte: 99 (packet [3]uint8\x7b0x99, 0x0, 0x0\x7d)\n" := by
      decide
    simp [handlers, handlersFrom, handlersStep, handlePacket, okPacket, mkData,
      encoderLoop, buttonLoop, callEncoder, callButton, hb, henc, e1, e2, e3]
    exact hline

/-- Witness of C15: the specification's example, run on the code. -/
theorem handlers_diagnostics_witness :
    (0xB0 : Byte) ≠ 0x90 ∧ (0xB0 : Byte) ≠ 0x99 ∧ (0x90 : Byte) ≠ 0x99 ∧
    (handlers 0xB0 0x90 world0 sampleInputs).world.stderr =
      ["unrecognized status byte: 99 (packet [3]uint8\x7b0x99, 0x0, 0x0\x7d)\n"] ∧
    (handlers 0xB0 0x90 world0
      [.hch (failHandler 1 "boom"), .pkt (okPacket 0xB0 3 64),
        .pkt (errPacket 0x90 1 2 (GoError.foreign 0 "read failed")),
        .pkt (okPacket 0x90 37 100)]).world.stderr =
      ["boom (packet [3]uint8\x7b0xb0, 0x3, 0x40\x7d)\n",
        "read failed (packet [3]uint8\x7b0x90, 0x1, 0x2\x7d)\n",
        "boom (packet [3]uint8\x7b0x90, 0x25, 0x64\x7d)\n"] ∧
    (handlers 0xB0 0x90 world0 sampleInputs).world.stderr =
      world0.stderr ++
        (List.range sampleInputs.length).flatMap (specDiagAt 0xB0 0x90 world0 sampleInputs) :=
  ⟨by decide, by decide, by decide, by decide, by decide,
    (handlers_diagnostics 0xB0 0x90 world0 sampleInputs).1⟩

/-! ## Auxiliary facts about `New` -/

theorem selectDevice_spec {σ : Type} (ds : List Device) :
    ∀ c : Code σ,
      selectDevice c ds =
        { Device := (match lastControls ds with
            | some d => some d
            | none => c.Device),
          handlers := c.handlers } := by
  induction ds with
  | nil => intro c; rfl
  | cons d ds ih =>
    intro c
    by_cases hd : d.Name = Controls
    · simp only [selectDevice, hd, if_true, ih, lastControls, List.filter_cons,
        decide_True, List.getLast?_cons]
      cases (List.filter (fun d => decide (d.Name = Controls)) ds).getLast? <;> rfl
    · simp only [selectDevice, hd, if_false, ih, lastControls, List.filter_cons,
        decide_False]
      rfl

theorem lastControls_eq_none_iff (ds : List Device) :
    lastControls ds = none ↔ ∀ d ∈ ds, d.Name ≠ Controls := by
  simp [lastControls, List.getLast?_eq_none_iff, List.filter_eq_nil_iff]

theorem lastControls_of_split (front back : List Device) (d : Device)
    (hd : d.Name = Controls) (hback : ∀ x ∈ back, x.Name ≠ Controls) :
    lastControls (front ++ d :: back) = some d := by
  have hnil : List.filter (fun d => decide (d.Name = Controls)) back = [] := by
    rw [List.filter_eq_nil_iff]
    intro x hx
    simpa using hback x hx
  simp only [lastControls, List.filter_append, List.filter_cons, hd, decide_True, if_true,
    hnil, List.getLast?_concat]

theorem exists_last_controls (ds : List Device) (h : ∃ d ∈ ds, d.Name = Controls) :
    ∃ (front : List Device) (d : Device) (back : List Device),
      ds = front ++ d :: back ∧ d.Name = Controls ∧ ∀ x ∈ back, x.Name ≠ Controls := by
  induction ds with
  | nil => obtain ⟨d, hd, _⟩ := h; cases hd
  | cons a as ih =>
    by_cases hrest : ∃ d ∈ as, d.Name = Controls
    · obtain ⟨front, d, back, e1, e2, e3⟩ := ih hrest
      exact ⟨a :: front, d, back, by rw [e1]; rfl, e2, e3⟩
    · obtain ⟨d, hd, hname⟩ := h
      have hda : d = a := by
        rcases List.mem_cons.mp hd with h1 | h1
        · exact h1
        · exact absurd ⟨d, h1, hname⟩ hrest
      refine ⟨[], a, as, rfl, hda ▸ hname, ?_⟩
      intro x hx hxn
      exact hrest ⟨x, hx, hxn⟩

/-- The function `New` with its device loop replaced by what the loop computes. -/
theorem New_unfold {σ : Type} (m : Midi) :
    (New m : NewResult σ) =
      (match m.Devices.2 with
        | some err =>
          { code := none, err := some (GoError.wrap err "listing devices"), started := none }
        | none =>
          (match lastControls m.Devices.1 with
            | none =>
              { code := none, err := some (GoError.new "finding device"), started := none }
            | some d =>
              (match m.Open d with
                | some err =>
                  { code := none, err := some (GoError.wrap err "opening device"),
                    started := none }
                | none =>
                  (match (m.Packets d).2 with
                    | some err =>
                      { code := none,
                        err := some (GoError.wrap err "getting packets channel"),
                        started := none }
                    | none =>
                      { code := some { Device := some d, handlers := makeChan 1 },
                        err := none, started := some (m.Packets d).1 })))) := by
  unfold New
  cases m.Devices.2 with
  | some err => rfl
  | none =>
    simp only [selectDevice_spec]
    cases lastControls m.Devices.1 with
    | none => rfl
    | some d => rfl

/-! ## Properties of `New` and `AddHandler` -/

/-- C13, as stated, fails: when the listed devices include none named
`Controls`, the error `New` returns is the new error `finding device`, which
wraps nothing and carries no underlying failure. -/
theorem New_finding_device_not_wrapped :
    (New (okMidi [⟨"Keyboard", 0⟩]) : NewResult Nat).err =
      some (GoError.new "finding device") ∧
    (New (okMidi [⟨"Keyboard", 0⟩]) : NewResult Nat).code.isNone = true ∧
    ¬ ∃ (cause : GoError) (text : String),
      (New (okMidi [⟨"Keyboard", 0⟩]) : NewResult Nat).err =
        some (GoError.wrap cause text) := by
  have h : (New (okMidi [⟨"Keyboard", 0⟩]) : NewResult Nat).err =
      some (GoError.new "finding device") := by decide
  refine ⟨h, by decide, ?_⟩
  rintro ⟨cause, text, hw⟩
  rw [h] at hw
  cases hw

/-- C13, amended: `New` returns an error, and then no connection, exactly when
one of its four steps fails: listing the devices fails, no listed device is
named `Controls`, opening the selected device fails, or getting its packet
channel fails. When listing, opening or getting the packet channel fails, the
returned error wraps the underlying failure, with the message `listing
devices`, `opening device` or `getting packets channel` followed by `: ` and
the cause's message; when no device is named `Controls` it is the new error
`finding device`, which has no cause. The dispatch loop is started exactly when
all four steps succeed. -/
theorem New_fails_iff_step_fails {σ : Type} (m : Midi) :
    ((New m : NewResult σ).err ≠ none ↔
      (m.Devices.2 ≠ none ∨
        (m.Devices.2 = none ∧ ∀ d ∈ m.Devices.1, d.Name ≠ Controls) ∨
        (m.Devices.2 = none ∧ ∃ d : Device, lastControls m.Devices.1 = some d ∧
          (m.Open d ≠ none ∨ (m.Packets d).2 ≠ none)))) ∧
    ((New m : NewResult σ).code = none ↔ (New m : NewResult σ).err ≠ none) ∧
    ((New m : NewResult σ).started ≠ none ↔ (New m : NewResult σ).err = none) ∧
    (∀ e : GoError, m.Devices.2 = some e →
      (New m : NewResult σ).err = some (GoError.wrap e "listing devices") ∧
      (GoError.wrap e "listing devices").Error = "listing devices: " ++ e.Error) ∧
    (m.Devices.2 = none → (∀ d ∈ m.Devices.1, d.Name ≠ Controls) →
      (New m : NewResult σ).err = some (GoError.new "finding device")) ∧
    (m.Devices.2 = none → ∀ d : Device, lastControls m.Devices.1 = some d →
      (∀ e : GoError, m.Open d = some e →
        (New m : NewResult σ).err = some (GoError.wrap e "opening device") ∧
        (GoError.wrap e "opening device").Error = "opening device: " ++ e.Error) ∧
      (m.Open d = none → ∀ e : GoError, (m.Packets d).2 = some e →
        (New m : NewResult σ).err = some (GoError.wrap e "getting packets channel") ∧
        (GoError.wrap e "getting packets channel").Error =
          "getting packets channel: " ++ e.Error) ∧
      (m.Open d = none → (m.Packets d).2 = none →
        (New m : NewResult σ).err = none ∧
        (New m : NewResult σ).code = some { Device := some d, handlers := makeChan 1 } ∧
        (New m : NewResult σ).started = some (m.Packets d).1)) := by
  rw [New_unfold]
  cases h1 : m.Devices.2 with
  | some e1 => simp [GoError.Error]
  | none =>
    cases h2 : lastControls m.Devices.1 with
    | none =>
      have hall := (lastControls_eq_none_iff m.Devices.1).mp h2
      simp
      exact hall
    | some d =>
      have hex : ¬ ∀ x ∈ m.Devices.1, x.Name ≠ Controls := by
        intro hall
        rw [(lastControls_eq_none_iff m.Devices.1).mpr hall] at h2
        cases h2
      cases h3 : m.Open d with
      | some e3 => simp [hex, h3, GoError.Error]
      | none =>
        cases h4 : (m.Packets d).2 with
        | some e4 => simp [hex, h3, h4, GoError.Error]
        | none => simp [hex, h3, h4]

/-- Witness of the amended C13: the three wrapped failures and the success, on
a device list with one device named `Controls`. -/
theorem New_fails_iff_step_fails_witness :
    (New (listFailMidi (GoError.foreign 0 "no sequencer")) : NewResult Nat).err =
      some (GoError.wrap (GoError.foreign 0 "no sequencer") "listing devices") ∧
    (New (openFailMidi [⟨"Controls", 4⟩] (GoError.foreign 0 "busy")) : NewResult Nat).err =
      some (GoError.wrap (GoError.foreign 0 "busy") "opening device") ∧
    (New (packetsFailMidi [⟨"Controls", 4⟩] (GoError.foreign 0 "closed")) :
      NewResult Nat).err =
      some (GoError.wrap (GoError.foreign 0 "closed") "getting packets channel") ∧
    (New (okMidi [⟨"Controls", 4⟩]) : NewResult Nat).err = none ∧
    (New (okMidi [⟨"Controls", 4⟩]) : NewResult Nat).started = some 4 ∧
    (((New (okMidi [⟨"Controls", 4⟩]) : NewResult Nat).code = none) ↔
      ((New (okMidi [⟨"Controls", 4⟩]) : NewResult Nat).err ≠ none)) :=
  ⟨by decide, by decide, by decide, by decide, by decide,
    (New_fails_iff_step_fails (okMidi [⟨"Controls", 4⟩])).2.1⟩

/-- C18: `New` does not require the device named `Controls` to be unique. For
every device list that contains one or more devices named `Controls`, the
device `New` selects is the last of them in list order: it is the device that
is opened, whose packet channel is taken and that the connection holds, and
the error `finding device` is not returned. `New` returns the error `finding
device` exactly when listing succeeds and no listed device has that name. -/
theorem New_selects_last_controls {σ : Type} (m : Midi) :
    (m.Devices.2 = none → (∃ d ∈ m.Devices.1, d.Name = Controls) →
      ∃ (front : List Device) (d : Device) (back : List Device),
        m.Devices.1 = front ++ d :: back ∧ d.Name = Controls ∧
        (∀ x ∈ back, x.Name ≠ Controls) ∧
        (New m : NewResult σ).err ≠ some (GoError.new "finding device") ∧
        (∀ e : GoError, m.Open d = some e →
          (New m : NewResult σ).err = some (GoError.wrap e "opening device")) ∧
        (m.Open d = none → ∀ e : GoError, (m.Packets d).2 = some e →
          (New m : NewResult σ).err = some (GoError.wrap e "getting packets channel")) ∧
        (m.Open d = none → (m.Packets d).2 = none →
          (New m : NewResult σ) =
            { code := some { Device := some d, handlers := makeChan 1 }, err := none,
              started := some (m.Packets d).1 })) ∧
    ((New m : NewResult σ).err = some (GoError.new "finding device") ↔
      (m.Devices.2 = none ∧ ∀ d ∈ m.Devices.1, d.Name ≠ Controls)) := by
  constructor
  · intro h1 hex
    obtain ⟨front, d, back, e1, e2, e3⟩ := exists_last_controls m.Devices.1 hex
    have h2 : lastControls m.Devices.1 = some d := by
      rw [e1]
      exact lastControls_of_split front back d e2 e3
    refine ⟨front, d, back, e1, e2, e3, ?_⟩
    rw [New_unfold]
    cases h3 : m.Open d with
    | some e3 => simp [h1, h2, h3]
    | none =>
      cases h4 : (m.Packets d).2 with
      | some e4 => simp [h1, h2, h3, h4]
      | none => simp [h1, h2, h3, h4]
  · rw [New_unfold]
    cases h1 : m.Devices.2 with
    | some e1 => simp
    | none =>
      cases h2 : lastControls m.Devices.1 with
      | none =>
        have hall := (lastControls_eq_none_iff m.Devices.1).mp h2
        simp
        exact hall
      | some d =>
        have hex : ¬ ∀ x ∈ m.Devices.1, x.Name ≠ Controls := by
          intro hall
          rw [(lastControls_eq_none_iff m.Devices.1).mpr hall] at h2
          cases h2
        cases h3 : m.Open d with
        | some e3 => simp [hex, h3]
        | none =>
          cases h4 : (m.Packets d).2 with
          | some e4 => simp [hex, h3, h4]
          | none => simp [hex, h3, h4]

/-- Witness of C18: of three devices, the first and the last are named
`Controls`; the connection holds the last one and the loop is started on its
packet channel. -/
theorem New_selects_last_controls_witness :
    (New (okMidi [⟨"Controls", 1⟩, ⟨"Keyboard", 2⟩, ⟨"Controls", 3⟩]) : NewResult Nat).err =
      none ∧
    (New (okMidi [⟨"Controls", 1⟩, ⟨"Keyboard", 2⟩, ⟨"Controls", 3⟩]) :
      NewResult Nat).started = some 3 ∧
    ((New (okMidi [⟨"Controls", 1⟩, ⟨"Keyboard", 2⟩, ⟨"Controls", 3⟩]) :
      NewResult Nat).code.map fun c => c.Device) = some (some ⟨"Controls", 3⟩) ∧
    (((New (okMidi [⟨"Keyboard", 2⟩]) : NewResult Nat).err =
        some (GoError.new "finding device")) ↔
      ((okMidi [⟨"Keyboard", 2⟩]).Devices.2 = none ∧
        ∀ d ∈ (okMidi [⟨"Keyboard", 2⟩]).Devices.1, d.Name ≠ Controls)) :=
  ⟨by decide, by decide, by decide,
    (New_selects_last_controls (okMidi [⟨"Keyboard", 2⟩])).2⟩

theorem New_code_handlers {σ : Type} (m : Midi) (c : Code σ)
    (hnew : (New m : NewResult σ).code = some c) : c.handlers = makeChan 1 := by
  rw [New_unfold] at hnew
  cases h1 : m.Devices.2 with
  | some e1 => simp [h1] at hnew
  | none =>
    cases h2 : lastControls m.Devices.1 with
    | none => simp [h1, h2] at hnew
    | some d =>
      cases h3 : m.Open d with
      | some e3 => simp [h1, h2, h3] at hnew
      | none =>
        cases h4 : (m.Packets d).2 with
        | some e4 => simp [h1, h2, h3, h4] at hnew
        | none =>
          simp only [h1, h2, h3, h4, Option.some.injEq] at hnew
          rw [← hnew]

theorem addWhileBusy_fresh {σ : Type} (c : Code σ) (hc : c.handlers = makeChan 1)
    (hs : List (Handler σ)) : (addWhileBusy c hs).1 = min 1 hs.length := by
  cases hs with
  | nil => rfl
  | cons h rest =>
    cases rest with
    | nil => simp [addWhileBusy, Code.AddHandler, HandlerChan.send, hc, makeChan]
    | cons h2 rest2 => simp [addWhileBusy, Code.AddHandler, HandlerChan.send, hc, makeChan]

/-- C12, as stated, fails: on the connection `New` returns, a first call of
`AddHandler` made while the dispatch loop receives nothing returns, and a
second such call blocks, the channel's buffer of one being full. -/
theorem AddHandler_second_call_blocks :
    ((New (okMidi [⟨"Controls", 4⟩]) : NewResult Nat).code.bind
      fun c => c.AddHandler (okHandler 1)).isSome = true ∧
    (((New (okMidi [⟨"Controls", 4⟩]) : NewResult Nat).code.bind
      fun c => c.AddHandler (okHandler 1)).bind
        fun c => c.AddHandler (okHandler 2)).isNone = true := by
  decide

/-- C12, amended: `AddHandler` sends the handler on the channel `New` made with
a buffer of one. A call made while the dispatch loop is not receiving returns
exactly when the buffer has room. So on a connection returned by `New`, of the
calls made while the loop is busy the first returns at once, leaving its
handler pending, and the next blocks; once the loop has received the pending
handler, a call returns again. -/
theorem AddHandler_returns_iff_buffer_has_room {σ : Type} (m : Midi) (c : Code σ)
    (hnew : (New m : NewResult σ).code = some c) :
    c.handlers.cap = 1 ∧ c.handlers.buf = [] ∧
    (∀ (c1 : Code σ) (h : Handler σ),
      (c1.AddHandler h).isSome = true ↔ c1.handlers.buf.length < c1.handlers.cap) ∧
    (∀ h : Handler σ, ∃ c1 : Code σ,
      c.AddHandler h = some c1 ∧ c1.Device = c.Device ∧ c1.handlers.buf = [h] ∧
      (∀ h2 : Handler σ, c1.AddHandler h2 = none) ∧
      (∃ ch : HandlerChan σ, c1.handlers.recv = some (h, ch) ∧
        ∀ h2 : Handler σ,
          (Code.AddHandler { Device := c1.Device, handlers := ch } h2).isSome = true)) ∧
    (∀ hs : List (Handler σ), (addWhileBusy c hs).1 = min 1 hs.length) := by
  have hc := New_code_handlers m c hnew
  refine ⟨by rw [hc]; rfl, by rw [hc]; rfl, ?_, ?_, addWhileBusy_fresh c hc⟩
  · intro c1 h
    simp only [Code.AddHandler, HandlerChan.send]
    split <;> simp_all
  · intro h
    refine ⟨{ Device := c.Device, handlers := { cap := 1, buf := [h] } }, ?_, rfl, rfl, ?_, ?_⟩
    · simp [Code.AddHandler, HandlerChan.send, hc, makeChan]
    · intro h2
      simp [Code.AddHandler, HandlerChan.send]
    · refine ⟨{ cap := 1, buf := [] }, rfl, ?_⟩
      intro h2
      simp [Code.AddHandler, HandlerChan.send]

/-- Witness of the amended C12: the connection made on one device named
`Controls`, and three calls of `AddHandler` while the loop is busy. -/
theorem AddHandler_returns_iff_buffer_has_room_witness :
    (New (okMidi [⟨"Controls", 4⟩]) : NewResult Nat).code =
      some { Device := some ⟨"Controls", 4⟩, handlers := makeChan 1 } ∧
    (addWhileBusy ({ Device := some ⟨"Controls", 4⟩, handlers := makeChan 1 } : Code Nat)
      [okHandler 1, okHandler 2, okHandler 3]).1 = min 1 3 :=
  ⟨rfl,
    (AddHandler_returns_iff_buffer_has_room (okMidi [⟨"Controls", 4⟩])
      { Device := some ⟨"Controls", 4⟩, handlers := makeChan 1 } rfl).2.2.2.2
      [okHandler 1, okHandler 2, okHandler 3]⟩

end Code
